import Mathlib

/-!
Verification of the elasticsearch_agent backend against its natural-language
specification.  Each Python function named by a claim is embedded shallowly:
pure logic becomes a Lean function, machine floats become exact rationals
(`ℚ`), Python runtime values become the `PyVal` type, a call that can raise
becomes `Except`, and each external client call is abstracted as an explicit
parameter carrying that call's outcome.
-/

namespace ESAgent

/-- A Python runtime value, as far as the embedded code inspects one:
`None`, booleans, ints, floats (modelled exactly as rationals), strings,
lists and string-keyed dicts (assoc lists in insertion order). -/
inductive PyVal where
  | none
  | bool (b : Bool)
  | int (n : Int)
  | float (q : ℚ)
  | str (s : String)
  | list (l : List PyVal)
  | dict (l : List (String × PyVal))

/-- Python truthiness: `None`, `False`, `0`, `0.0`, `""`, `[]` and `{ }`
are falsy, everything else truthy. -/
def pyTruthy : PyVal → Bool
  | .none => false
  | .bool b => b
  | .int n => n != 0
  | .float q => q != 0
  | .str s => s != ""
  | .list l => !l.isEmpty
  | .dict l => !l.isEmpty

/-- Lookup in a Python dict (`d[k]` when present, else absent):
first binding wins, as in an insertion-ordered dict without duplicate keys. -/
def dictGet (d : List (String × PyVal)) (k : String) : Option PyVal :=
  (d.find? (fun kv => kv.1 == k)).map (fun kv => kv.2)

/-- `isinstance(v, str)`. -/
def isStr : PyVal → Bool
  | .str _ => true
  | _ => false

/-- Python membership `v in l` for a list of strings: only an equal string
matches (no Python value of another shape equals a `str`). -/
def pyInStrList (v : PyVal) (l : List String) : Bool :=
  match v with
  | .str s => l.contains s
  | _ => false

/-- Whether the first char list starts the second. -/
def startsWithChars : List Char → List Char → Bool
  | [], _ => true
  | _ :: _, [] => false
  | a :: as, b :: bs => a == b && startsWithChars as bs

/-- Whether `needle` occurs contiguously inside the second list. -/
def hasInfixChars (needle : List Char) : List Char → Bool
  | [] => needle.isEmpty
  | b :: bs => startsWithChars needle (b :: bs) || hasInfixChars needle bs

/-- Substring containment, Python's `needle in haystack` on strings. -/
def substrOf (needle haystack : String) : Bool :=
  hasInfixChars needle.toList haystack.toList

/-- Python's `str.lower()` (ASCII case mapping — every string the claims
exercise is ASCII). -/
def strToLower (s : String) : String := String.mk (s.data.map Char.toLower)

/-! ## Search-cluster client: `simple_search`
(src/backend/app/services/elasticsearch.py, lines 80-134)

The Elasticsearch client call is abstracted as a function from the clamped
size to its outcome: a raised `NotFoundError`, some other raised exception
(carrying `str(e)`), or a response value. -/

/-- Outcome of `self.client.search(...)`. -/
inductive EsClientError where
  | notFound
  | other (msg : String)

/-- `settings.max_query_size` (config.py default 1000). -/
def maxQuerySize : Int := 1000

/-- The failure-path dict both `except` branches of `simple_search` build. -/
def searchFailureDict (msg : String) : List (String × PyVal) :=
  [("total_hits", .int 0), ("data", .list []),
   ("aggregations", .dict []), ("error", .str msg)]

/-- `total_hits.get("value", 0) if isinstance(total_hits, dict) else total_hits`. -/
def extractTotalCount (th : PyVal) : PyVal :=
  match th with
  | .dict l => (dictGet l "value").getD (.int 0)
  | _ => th

/-- The body of `simple_search`'s `try` block after the client returned
`resp`: subscripting that fails (missing key, wrong shape) raises, which the
enclosing `except Exception` turns into the failure dict. -/
def searchTryBody (resp : PyVal) : Except String (List (String × PyVal)) :=
  match resp with
  | .dict r =>
    match dictGet r "hits" with
    | Option.none => .error "KeyError: hits"
    | some hitsV =>
      match hitsV with
      | .dict h =>
        match dictGet h "total" with
        | Option.none => .error "KeyError: total"
        | some totalHits =>
          match dictGet h "hits" with
          | Option.none => .error "KeyError: hits list"
          | some hitsListV =>
            match hitsListV with
            | .list hitsList =>
              match hitsList.mapM (fun hit =>
                  match hit with
                  | .dict hd => dictGet hd "_source"
                  | _ => Option.none) with
              | Option.none => .error "KeyError: _source"
              | some data =>
                .ok [("total_hits", extractTotalCount totalHits),
                     ("data", .list data),
                     ("aggregations", (dictGet r "aggregations").getD (.dict [])),
                     ("took", (dictGet r "took").getD (.int 0)),
                     ("timed_out", (dictGet r "timed_out").getD (.bool false))]
            | _ => .error "TypeError: hits not a list"
      | _ => .error "TypeError: hits not a dict"
  | _ => .error "TypeError: response not a dict"

/-- `ElasticsearchService.simple_search`.  A `.error` result is a raised
`ValueError` (malformed input); a `.ok` result is the returned dict. -/
def simple_search (index query : PyVal) (size : Int)
    (client : Int → Except EsClientError PyVal) :
    Except String (List (String × PyVal)) :=
  if !pyTruthy index || !isStr index then .error "Invalid index name"
  else if !pyTruthy query || !(match query with | .dict _ => true | _ => false) then
    .error "Invalid query structure"
  else
    let clamped := max 0 (min maxQuerySize size)
    match client clamped with
    | .ok resp =>
      match searchTryBody resp with
      | .ok d => .ok d
      | .error e => .ok (searchFailureDict ("Search failed: " ++ e))
    | .error .notFound =>
      .ok (searchFailureDict
        ("Index '" ++ (match index with | .str s => s | _ => "") ++ "' not found"))
    | .error (.other e) => .ok (searchFailureDict ("Search failed: " ++ e))

/-! ## Agent: `_determine_target_index`
(src/backend/app/agents/elasticsearch_agent.py, lines 366-391) -/

/-- `ElasticsearchAgent._determine_target_index(intent_analysis, available_indices)`. -/
def determineTargetIndex (intent_analysis : List (String × PyVal))
    (available : List String) : Option String :=
  if available.isEmpty then Option.none
  else
    -- `if specified_index and specified_index in available_indices`
    let specified := (dictGet intent_analysis "index").getD .none
    match specified with
    | .str s =>
      if s != "" && available.contains s then some s
      else determineTargetIndexRest intent_analysis available
    | _ => determineTargetIndexRest intent_analysis available
where
  /-- The part after the user-specified-index check. -/
  determineTargetIndexRest (intent_analysis : List (String × PyVal))
      (available : List String) : Option String :=
    let intent := (dictGet intent_analysis "intent").getD (.str "general")
    if available.contains "sample-sales" &&
        pyInStrList intent ["chart", "aggregate", "search"] then some "sample-sales"
    else if available.contains "sample-logs" &&
        pyInStrList intent ["search", "filter"] then some "sample-logs"
    else
      match available.filter (fun idx => !idx.startsWith ".") with
      | i :: _ => some i
      | [] => available.head?

/-- The spec's fallback chain once no index is named: `sample-sales` when
available for a chart/aggregate/search intent, else `sample-logs` when
available for a search/filter intent, else the first available index not
starting with `.`, else the first available index. -/
def specFallbackIndex (intent_analysis : List (String × PyVal))
    (available : List String) : Option String :=
  let intentIs : List String → Bool := fun l =>
    match (dictGet intent_analysis "intent").getD (.str "general") with
    | .str s => l.contains s
    | _ => false
  if "sample-sales" ∈ available ∧ intentIs ["chart", "aggregate", "search"] = true then
    some "sample-sales"
  else if "sample-logs" ∈ available ∧ intentIs ["search", "filter"] = true then
    some "sample-logs"
  else
    match available.filter (fun idx => !idx.startsWith ".") with
    | i :: _ => some i
    | [] => available.head?

/-- The target-index selection rule as the spec words it, for the refinement
comparison: named index if available (naming an index means a non-empty
string-valued `index` field), else the fallback chain, and no index at all
for an empty available list. -/
def specTargetIndexRule (intent_analysis : List (String × PyVal))
    (available : List String) : Option String :=
  match available with
  | [] => Option.none
  | _ =>
    let named : Option String :=
      match dictGet intent_analysis "index" with
      | some (.str s) => if s ≠ "" ∧ s ∈ available then some s else Option.none
      | _ => Option.none
    match named with
    | some s => some s
    | Option.none => specFallbackIndex intent_analysis available

/-! ## Cache service and session-deletion route
(src/backend/app/services/redis.py, lines 72-79;
 src/backend/app/api/routes.py, lines 286-309)

The Redis connection is abstracted by a store (key-value assoc list) plus an
`outage` flag: when the flag is set, `self.client.delete(key)` raises and the
store keeps its contents. -/

/-- Outcome of `self.client.delete(key)`: new store plus number of keys
removed, or a raised connection error. -/
def redisClientDelete (store : List (String × PyVal)) (key : String)
    (outage : Bool) : Except String (List (String × PyVal) × Nat) :=
  if outage then .error "connection error"
  else .ok (store.filter (fun kv => kv.1 != key),
            if store.any (fun kv => kv.1 == key) then 1 else 0)

/-- `RedisService.delete`: `result > 0` on success, `False` on any exception
(store untouched, the failure only logged). -/
def redisDelete (store : List (String × PyVal)) (key : String)
    (outage : Bool) : List (String × PyVal) × Bool :=
  match redisClientDelete store key outage with
  | .ok (store', n) => (store', decide (n > 0))
  | .error _ => (store, false)

/-- `RedisService.delete_session`: `delete` under the `session:{session_id}`
key template (constants.py `CACHE_KEYS`). -/
def redisDeleteSession (store : List (String × PyVal)) (session_id : String)
    (outage : Bool) : List (String × PyVal) × Bool :=
  redisDelete store ("session:" ++ session_id) outage

/-- An HTTP response as the route handler determines it. -/
structure HttpResponse where
  status : Nat
  body : String
deriving DecidableEq, Repr

/-- `DELETE /session/{session_id}` (routes.py `delete_session`): a false
return from the cache service becomes 404 "Session not found"; a true return
becomes the 200 confirmation. -/
def deleteSessionRoute (store : List (String × PyVal)) (session_id : String)
    (outage : Bool) : List (String × PyVal) × HttpResponse :=
  let r := redisDeleteSession store session_id outage
  if !r.2 then (r.1, ⟨404, "Session not found"⟩)
  else (r.1, ⟨200, "Session deleted successfully"⟩)

/-! ## Query intelligence: pattern recognition
(src/backend/app/services/query_intelligence.py) -/

/-- The ten recognized query patterns, in declaration (= dict insertion)
order of `_build_pattern_rules`. -/
inductive QueryPattern where
  | time_series_analysis
  | categorical_comparison
  | aggregation_summary
  | correlation_analysis
  | distribution_analysis
  | trend_analysis
  | anomaly_detection
  | drill_down
  | roll_up
  | filter_refinement
deriving DecidableEq, Repr

/-- `.value` of a `QueryPattern` enum member. -/
def QueryPattern.value : QueryPattern → String
  | .time_series_analysis => "time_series_analysis"
  | .categorical_comparison => "categorical_comparison"
  | .aggregation_summary => "aggregation_summary"
  | .correlation_analysis => "correlation_analysis"
  | .distribution_analysis => "distribution_analysis"
  | .trend_analysis => "trend_analysis"
  | .anomaly_detection => "anomaly_detection"
  | .drill_down => "drill_down"
  | .roll_up => "roll_up"
  | .filter_refinement => "filter_refinement"

/-- One entry of `_build_pattern_rules`: the rule dict's fields, with the
absent keys of a pattern modelled as empty lists (`rules.get(..., [])`). -/
structure PatternRule where
  keywords : List String
  field_types : List String := []
  chart_types : List String := []
  aggregation_types : List String := []
  complexity : ℚ
  confidence_boost : ℚ

/-- `_build_pattern_rules()`, in its insertion order. -/
def patternRules : List (QueryPattern × PatternRule) :=
  [(.time_series_analysis,
    { keywords := ["over time", "timeline", "trend", "progression", "daily",
                   "monthly", "yearly"],
      field_types := ["temporal", "date", "timestamp"],
      chart_types := ["line", "area"],
      complexity := 6/10, confidence_boost := 3/10 }),
   (.categorical_comparison,
    { keywords := ["compare", "versus", "vs", "between", "across", "by category"],
      field_types := ["categorical", "text"],
      chart_types := ["bar", "pie"],
      complexity := 4/10, confidence_boost := 2/10 }),
   (.aggregation_summary,
    { keywords := ["total", "sum", "average", "count", "max", "min", "summary"],
      aggregation_types := ["sum", "avg", "count", "max", "min"],
      chart_types := ["bar", "pie"],
      complexity := 3/10, confidence_boost := 4/10 }),
   (.correlation_analysis,
    { keywords := ["correlation", "relationship", "association", "related", "impact"],
      field_types := ["numeric"],
      chart_types := ["scatter", "heatmap"],
      complexity := 8/10, confidence_boost := 5/10 }),
   (.distribution_analysis,
    { keywords := ["distribution", "spread", "range", "histogram", "frequency"],
      field_types := ["numeric"],
      chart_types := ["histogram", "box"],
      complexity := 7/10, confidence_boost := 4/10 }),
   (.trend_analysis,
    { keywords := ["trend", "pattern", "growth", "decline", "increase", "decrease"],
      field_types := ["temporal", "numeric"],
      chart_types := ["line", "area"],
      complexity := 6/10, confidence_boost := 3/10 }),
   (.anomaly_detection,
    { keywords := ["anomaly", "outlier", "unusual", "abnormal", "spike", "drop"],
      field_types := ["numeric"],
      chart_types := ["line", "scatter"],
      complexity := 9/10, confidence_boost := 6/10 }),
   (.drill_down,
    { keywords := ["detail", "breakdown", "drill down", "specific", "individual"],
      complexity := 5/10, confidence_boost := 2/10 }),
   (.roll_up,
    { keywords := ["overview", "summary", "high level", "aggregate", "total"],
      complexity := 3/10, confidence_boost := 2/10 }),
   (.filter_refinement,
    { keywords := ["filter", "where", "only", "exclude", "include", "specific"],
      complexity := 4/10, confidence_boost := 1/10 })]

mutual

/-- Python `repr` of a value, as far as the embedded code exercises it
(`str(intent_fields)` on the field list).  Floats are rendered as rationals:
the decimal float repr is not modelled, and no claim exercises it. -/
def pyRepr : PyVal → String
  | .none => "None"
  | .bool b => if b then "True" else "False"
  | .int n => toString n
  | .float q => toString q
  | .str s => "'" ++ s ++ "'"
  | .list l => "[" ++ String.intercalate ", " (pyReprList l) ++ "]"
  | .dict l => "\x7b" ++ String.intercalate ", " (pyReprDict l) ++ "\x7d"

/-- `repr` of each element of a list. -/
def pyReprList : List PyVal → List String
  | [] => []
  | x :: xs => pyRepr x :: pyReprList xs

/-- `repr` of each key-value pair of a dict. -/
def pyReprDict : List (String × PyVal) → List String
  | [] => []
  | (k, v) :: xs => ("'" ++ k ++ "': " ++ pyRepr v) :: pyReprDict xs

end

/-- Python `str(v)`. -/
def pyStr (v : PyVal) : String :=
  match v with
  | .str s => s
  | _ => pyRepr v

/-- The per-pattern score computed inside `_identify_primary_pattern`
(keyword fraction × 0.4, field-type bonus 0.3, chart-type bonus 0.2,
aggregation-type bonus 0.1, confidence boost when positive, capped at 1). -/
def patternScore (message_lower : String) (intent_analysis : List (String × PyVal))
    (r : PatternRule) : ℚ :=
  let keyword_matches : ℕ :=
    (r.keywords.filter (fun k => substrOf k message_lower)).length
  let s1 : ℚ :=
    if !r.keywords.isEmpty then
      ((keyword_matches : ℚ) / (r.keywords.length : ℚ)) * (4/10) else 0
  let intent_fields := (dictGet intent_analysis "fields").getD (.list [])
  let s2 : ℚ :=
    if !r.field_types.isEmpty && pyTruthy intent_fields &&
        r.field_types.any (fun ft => substrOf ft (strToLower (pyStr intent_fields)))
    then 3/10 else 0
  let intent_chart := (dictGet intent_analysis "chart_type").getD .none
  let s3 : ℚ :=
    if !r.chart_types.isEmpty && pyTruthy intent_chart &&
        pyInStrList intent_chart r.chart_types
    then 2/10 else 0
  let intent_agg := (dictGet intent_analysis "aggregation_type").getD .none
  let s4 : ℚ :=
    if !r.aggregation_types.isEmpty && pyTruthy intent_agg &&
        pyInStrList intent_agg r.aggregation_types
    then 1/10 else 0
  let score := s1 + s2 + s3 + s4
  let score := if score > 0 then score + r.confidence_boost else score
  min 1 score

/-- `QueryIntelligenceService._identify_primary_pattern`.  Python's
`max(pattern_scores, key=pattern_scores.get)` keeps the first key in
insertion order among ties and replaces it only on a strictly greater score;
the `(CATEGORICAL_COMPARISON, 0.5)` fallback fires only when the score dict
is empty, i.e. never with the built-in ten rules. -/
def identifyPrimaryPattern (user_message : String)
    (intent_analysis : List (String × PyVal)) : QueryPattern × ℚ :=
  let ml := strToLower user_message
  let pattern_scores :=
    patternRules.map (fun pr => (pr.1, patternScore ml intent_analysis pr.2))
  match pattern_scores with
  | [] => (.categorical_comparison, 1/2)
  | x :: xs => xs.foldl (fun best p => if p.2 > best.2 then p else best) x

/-! ## Query intelligence: user profiles
(src/backend/app/services/query_intelligence.py, lines 421-479) -/

mutual

/-- Structural equality on `PyVal`, standing in for Python `==` in the list
membership tests below.  Python's numeric cross-type equality (`1 == 1.0`)
is not modelled; the claims proved here depend only on list bounds, never on
which values compare equal. -/
def pyBEq : PyVal → PyVal → Bool
  | .none, .none => true
  | .bool a, .bool b => a == b
  | .int a, .int b => a == b
  | .float a, .float b => a == b
  | .str a, .str b => a == b
  | .list a, .list b => pyBEqList a b
  | .dict a, .dict b => pyBEqDict a b
  | _, _ => false

/-- Elementwise equality of lists of values. -/
def pyBEqList : List PyVal → List PyVal → Bool
  | [], [] => true
  | a :: as, b :: bs => pyBEq a b && pyBEqList as bs
  | _, _ => false

/-- Pairwise equality of dict entries (insertion order respected). -/
def pyBEqDict : List (String × PyVal) → List (String × PyVal) → Bool
  | [], [] => true
  | (ka, va) :: as, (kb, vb) :: bs => ka == kb && pyBEq va vb && pyBEqDict as bs
  | _, _ => false

end

instance : BEq PyVal := ⟨pyBEq⟩

/-- The `UserBehavior` enum. -/
inductive UserBehavior where
  | explorer
  | analyst
  | reporter
  | casual
deriving DecidableEq, Repr

/-- The `QueryInsight` dataclass. -/
structure QueryInsight where
  pattern : QueryPattern
  confidence : ℚ
  reasoning : String
  suggested_improvements : List String
  related_patterns : List QueryPattern
  user_behavior_hint : Option UserBehavior

/-- The `UserProfile` dataclass.  The `last_updated` wall-clock timestamp is
not modelled.  The chart-type and field lists hold `PyVal` because the code
appends whatever the intent analysis carries. -/
structure UserProfile where
  session_id : String
  behavior_type : UserBehavior
  preferred_chart_types : List PyVal
  common_fields : List PyVal
  query_complexity : ℚ
  domain_expertise : List (PyVal × ℚ)
  interaction_patterns : List (String × Nat)

/-- The fresh profile `update_user_profile` creates for an unseen session. -/
def freshProfile (session_id : String) : UserProfile :=
  { session_id := session_id, behavior_type := .casual,
    preferred_chart_types := [], common_fields := [],
    query_complexity := 1/2, domain_expertise := [],
    interaction_patterns := [] }

/-- Python's tail slice `l[-n:]`. -/
def lastN (n : Nat) (l : List α) : List α := l.drop (l.length - n)

/-- Dict read with default over `PyVal` keys. -/
def assocGetQ (l : List (PyVal × ℚ)) (k : PyVal) (d : ℚ) : ℚ :=
  ((l.find? (fun kv => pyBEq kv.1 k)).map (fun kv => kv.2)).getD d

/-- Dict assignment over `PyVal` keys: replace in place, else append. -/
def assocSetQ (k : PyVal) (v : ℚ) : List (PyVal × ℚ) → List (PyVal × ℚ)
  | [] => [(k, v)]
  | (k', v') :: rest =>
    if pyBEq k' k then (k, v) :: rest else (k', v') :: assocSetQ k v rest

/-- `d[name] = d.get(name, 0) + 1` on a counter dict. -/
def assocBump (k : String) : List (String × Nat) → List (String × Nat)
  | [] => [(k, 1)]
  | (k', v') :: rest =>
    if k' == k then (k, v' + 1) :: rest else (k', v') :: assocBump k rest

/-- `self.pattern_rules.get(query_insight.pattern, {}).get("complexity", 0.5)`. -/
def complexityWeight (p : QueryPattern) : ℚ :=
  ((patternRules.find? (fun pr => pr.1 == p)).map
    (fun pr => pr.2.complexity)).getD (1/2)

/-- Python iteration `for x in v`: lists yield elements, strings their
characters, dicts their keys; anything else raises `TypeError`. -/
def pyIter : PyVal → Except String (List PyVal)
  | .list l => .ok l
  | .str s => .ok (s.toList.map (fun c => .str (String.mk [c])))
  | .dict l => .ok (l.map (fun kv => .str kv.1))
  | _ => .error "TypeError: not iterable"

/-- Python `v > c` against a float: defined for numbers, raises otherwise. -/
def pyGtNum (v : PyVal) (c : ℚ) : Except String Bool :=
  match v with
  | .int n => .ok (decide ((n : ℚ) > c))
  | .float q => .ok (decide (q > c))
  | .bool b => .ok (decide ((if b then (1 : ℚ) else 0) > c))
  | _ => .error "TypeError: unorderable"

/-- The straight-line part of `update_user_profile` before the feedback
check: behavior type, preferred chart types (`if chart_type and chart_type
not in ...`, then `[-5:]`), common fields (appended one by one with a
membership test, then `[-10:]`), the complexity moving average, and the
pattern counter — given that Python iteration over the fields value
yielded `fields`. -/
def updateCoreProfile (existing : Option UserProfile) (session_id : String)
    (query_insight : QueryInsight) (intent_analysis : List (String × PyVal))
    (fields : List PyVal) : UserProfile :=
  let profile := existing.getD (freshProfile session_id)
  let profile :=
    match query_insight.user_behavior_hint with
    | some b => { profile with behavior_type := b }
    | Option.none => profile
  let chart_type := (dictGet intent_analysis "chart_type").getD .none
  let profile :=
    if pyTruthy chart_type && !profile.preferred_chart_types.contains chart_type
    then { profile with
            preferred_chart_types :=
              lastN 5 (profile.preferred_chart_types ++ [chart_type]) }
    else profile
  let profile :=
    { profile with
        common_fields :=
          lastN 10 (fields.foldl
            (fun acc f => if acc.contains f then acc else acc ++ [f])
            profile.common_fields) }
  let pattern_complexity := complexityWeight query_insight.pattern
  let profile :=
    { profile with
        query_complexity :=
          profile.query_complexity * (8/10) + pattern_complexity * (2/10) }
  { profile with
      interaction_patterns :=
        assocBump query_insight.pattern.value profile.interaction_patterns }

/-- `QueryIntelligenceService.update_user_profile`.  `existing` is the
profile the in-memory store holds for the session, if any; a `.error`
result is an exception the (try-less) method lets escape (iterating a
non-iterable fields value, or comparing a non-numeric satisfaction value —
both independent of the profile steps, so they are dispatched first). -/
def updateUserProfile (existing : Option UserProfile) (session_id : String)
    (query_insight : QueryInsight) (intent_analysis : List (String × PyVal))
    (user_feedback : Option (List (String × PyVal))) :
    Except String UserProfile :=
  match pyIter ((dictGet intent_analysis "fields").getD (.list [])) with
  | .error e => .error e
  | .ok fields =>
    let profile :=
      updateCoreProfile existing session_id query_insight intent_analysis fields
    match user_feedback with
    | some fb =>
      -- `if user_feedback and user_feedback.get("satisfaction", 0) > 0.7`
      if !fb.isEmpty then
        match pyGtNum ((dictGet fb "satisfaction").getD (.int 0)) (7/10) with
        | .error e => .error e
        | .ok true =>
          let index_name := (dictGet intent_analysis "index").getD (.str "general")
          let current := assocGetQ profile.domain_expertise index_name 0
          .ok { profile with
                 domain_expertise :=
                   assocSetQ index_name (min 1 (current + 1/10))
                     profile.domain_expertise }
        | .ok false => .ok profile
      else .ok profile
    | Option.none => .ok profile

/-! ## LLM service: intent-analysis validation
(src/backend/app/services/gemini.py, lines 110-184 and 431-472) -/

/-- `valid_intents` in `_validate_intent_analysis`. -/
def validIntents : List String :=
  ["search", "aggregate", "filter", "chart", "count", "general"]

/-- `valid_chart_types` in `_validate_intent_analysis`. -/
def validChartTypes : List String := ["line", "bar", "pie", "scatter", "area"]

/-- `valid_time_ranges` in `_validate_intent_analysis`. -/
def validTimeRanges : List String :=
  ["last_30_days", "last_week", "today", "last_hour", "last_24_hours"]

/-- The dict `_validate_intent_analysis` returns, given the normalized
intent and chart type; the time-range and fields normalization (which
cannot raise) is inlined here.
`if time_range and time_range not in valid_time_ranges: time_range = None`;
`data.get("fields") if isinstance(data.get("fields"), list) else None`. -/
def buildValidated (data : List (String × PyVal)) (intent : String)
    (chart_type : PyVal) : List (String × PyVal) :=
  let time_range := (dictGet data "time_range").getD .none
  let time_range :=
    if pyTruthy time_range && !pyInStrList time_range validTimeRanges
    then PyVal.none else time_range
  let fields :=
    match dictGet data "fields" with
    | some (.list l) => PyVal.list l
    | _ => PyVal.none
  [("intent", .str intent),
   ("index", (dictGet data "index").getD .none),
   ("time_range", time_range),
   ("fields", fields),
   ("chart_type", chart_type),
   ("aggregation_type", (dictGet data "aggregation_type").getD .none),
   ("query_description", (dictGet data "query_description").getD
     (.str "User query"))]

/-- `GeminiService._validate_intent_analysis(data)`.  A `.error` result is a
raised exception (`.lower()` on a non-string), which the caller's `except`
turns into the fallback analysis.
`intent = data.get("intent", "general").lower()`, defaulted to `"general"`
unless among the six valid intents;
`if chart_type and chart_type.lower() not in valid_chart_types:
chart_type = None` — a falsy chart type is kept as supplied, a truthy string
accepted case-insensitively is kept in its original case, a truthy
non-string raises. -/
def validateIntentAnalysis (data : List (String × PyVal)) :
    Except String (List (String × PyVal)) :=
  match (dictGet data "intent").getD (.str "general") with
  | .str intentRaw =>
    let intent := strToLower intentRaw
    let intent := if validIntents.contains intent then intent else "general"
    let ct0 := (dictGet data "chart_type").getD .none
    if pyTruthy ct0 then
      match ct0 with
      | .str s =>
        .ok (buildValidated data intent
          (if validChartTypes.contains (strToLower s) then PyVal.str s else .none))
      | _ => .error "AttributeError: lower"
    else .ok (buildValidated data intent ct0)
  | _ => .error "AttributeError: lower"

/-- `GeminiService._get_fallback_intent_analysis(description)`. -/
def fallbackIntentAnalysis (description : String) : List (String × PyVal) :=
  [("intent", .str "general"), ("index", .none), ("time_range", .none),
   ("fields", .none), ("chart_type", .none), ("aggregation_type", .none),
   ("query_description", .str description)]

/-- What `analyze_query_intent` observed from `generate_content` plus
`_extract_json_from_response`: either an exception while generating, or no
parsed value (absent/empty response or no JSON found), or the parsed value. -/
inductive IntentModelOutcome where
  | raised
  | unparsed
  | parsed (v : PyVal)

/-- `GeminiService.analyze_query_intent`, from the parse outcome on: a truthy
parsed dict is validated (a raised validation error falls into the outer
`except` and yields the error fallback), anything else yields a fallback. -/
def analyzeQueryIntent (outcome : IntentModelOutcome) : List (String × PyVal) :=
  match outcome with
  | .raised => fallbackIntentAnalysis "Error analyzing intent"
  | .unparsed => fallbackIntentAnalysis "Unable to parse intent"
  | .parsed v =>
    if pyTruthy v then
      match v with
      | .dict d =>
        match validateIntentAnalysis d with
        | .ok out => out
        | .error _ => fallbackIntentAnalysis "Error analyzing intent"
      | _ => fallbackIntentAnalysis "Error analyzing intent"
    else fallbackIntentAnalysis "Unable to parse intent"

/-! ## Chart recommendation engine
(src/backend/app/services/chart_recommendation.py)

`analyze_data` builds a pandas DataFrame from the row dicts; the embedding
works on the column-major image of that frame.  A `Column` is one DataFrame
column (rectangular: all columns share the row count); a missing or NaN
entry is `null`. -/

/-- One cell of the DataFrame. -/
inductive CellVal where
  | int (n : Int)
  | float (q : ℚ)
  | str (s : String)
  | null
deriving DecidableEq, Repr

/-- One DataFrame column: its name and its cells in row order. -/
structure Column where
  name : String
  values : List CellVal
deriving DecidableEq, Repr

/-- The column-major DataFrame. -/
abbrev Frame := List Column

/-- The pandas dtypes the source distinguishes (`int64`, `float64`,
`object`). -/
inductive Dtype where
  | int64
  | float64
  | obj
deriving DecidableEq, Repr

/-- pandas dtype inference for a column: any string makes it `object`;
otherwise all-int columns are `int64` and columns with floats or missing
entries (NaN) are `float64`. -/
def colDtype (vs : List CellVal) : Dtype :=
  if vs.any (fun v => match v with | .str _ => true | _ => false) then .obj
  else if vs.all (fun v => match v with | .int _ => true | _ => false) then .int64
  else .float64

/-- pandas stores an `int` cell of a `float64` column as the equal float. -/
def coerceCell (d : Dtype) (v : CellVal) : CellVal :=
  match d, v with
  | .float64, .int n => .float (n : ℚ)
  | _, v => v

/-- `df[column].nunique()`: distinct non-null values, after dtype coercion. -/
def nunique (vs : List CellVal) : Nat :=
  (((vs.map (coerceCell (colDtype vs))).filter
    (fun v => v ≠ .null)).dedup).length

/-- `(df[column].isnull().sum() / len(df)) * 100`. -/
def nullPct (vs : List CellVal) : ℚ :=
  (((vs.filter (fun v => v = .null)).length : ℚ) / (vs.length : ℚ)) * 100

/-- `len(df)` for the column-major frame. -/
def nrows (f : Frame) : Nat :=
  ((f.head?).map (fun c => c.values.length)).getD 0

/-- A numeric column's cells as exact rationals (`null` ↦ NaN ↦ absent). -/
def colNums (vs : List CellVal) : List (Option ℚ) :=
  vs.map (fun v =>
    match v with
    | .int n => some (n : ℚ)
    | .float q => some q
    | _ => Option.none)

/-- The rows where both series are present (pandas `corr` uses
pairwise-complete observations). -/
def corrPairs (x y : List (Option ℚ)) : List (ℚ × ℚ) :=
  (x.zip y).filterMap (fun ab =>
    match ab with
    | (some a, some b) => some (a, b)
    | _ => Option.none)

/-- Whether the Pearson correlation of the two series is defined and
satisfies `|r| > 0.7`.  With `covN = n·Σxy − Σx·Σy` and
`varX = n·Σx² − (Σx)²` (similarly `varY`) over the pairwise-complete rows,
`r` is defined iff both variances are positive (else pandas yields NaN,
which `.max()` skips), and then `r² = covN²/(varX·varY)`, so
`|r| > 7/10 ↔ covN²·100 > 49·varX·varY` — exact rational arithmetic in
place of the float computation. -/
def corrAbsExceeds (x y : List (Option ℚ)) : Bool :=
  let ps := corrPairs x y
  let n : ℚ := ps.length
  let sx := (ps.map (fun p => p.1)).sum
  let sy := (ps.map (fun p => p.2)).sum
  let sxy := (ps.map (fun p => p.1 * p.2)).sum
  let sxx := (ps.map (fun p => p.1 * p.1)).sum
  let syy := (ps.map (fun p => p.2 * p.2)).sum
  let covN := n * sxy - sx * sy
  let varX := n * sxx - sx * sx
  let varY := n * syy - sy * sy
  varX > 0 && varY > 0 && covN * covN * 100 > 49 * (varX * varY)

/-- `corr_matrix.abs().max().max() > 0.7` as the source computes it: the max
ranges over every entry of `df[numeric_fields].corr()` — the diagonal
included — and skips NaN entries, so it exceeds 0.7 iff some (not
necessarily distinct) pair of numeric columns has a defined correlation
with `|r| > 0.7`. -/
def strongCorrelationCheck (numericCols : List (List (Option ℚ))) : Bool :=
  numericCols.any (fun x => numericCols.any (fun y => corrAbsExceeds x y))

/-- The `DataCharacteristic` enum. -/
inductive DataCharacteristic where
  | temporal
  | categorical
  | numerical
  | correlation
  | distribution
  | hierarchical
deriving DecidableEq, Repr

/-- A column name is temporal when it contains `date`, `time` or
`timestamp` (case-insensitive). -/
def temporalName (name : String) : Bool :=
  ["date", "time", "timestamp"].any (fun k => substrOf k (strToLower name))

/-- `ChartRecommendationService._identify_characteristics`, appending the
characteristics in source order. -/
def identifyCharacteristics (f : Frame) (numeric categorical temporal : List String) :
    List DataCharacteristic :=
  let numericCols := numeric.filterMap (fun name =>
    ((f.find? (fun c => c.name == name)).map (fun c => colNums c.values)))
  (if !temporal.isEmpty && !numeric.isEmpty then [DataCharacteristic.temporal] else []) ++
  (if !categorical.isEmpty && !numeric.isEmpty then [DataCharacteristic.categorical] else []) ++
  (if numeric.length ≥ 2 then
    [DataCharacteristic.numerical] ++
      (if strongCorrelationCheck numericCols then [DataCharacteristic.correlation] else [])
   else []) ++
  (if numeric.length ≥ 1 then [DataCharacteristic.distribution] else []) ++
  (if ["parent", "child", "level", "category", "subcategory"].any
      (fun k => substrOf k (strToLower (String.intercalate " " (f.map (fun c => c.name)))))
   then [DataCharacteristic.hierarchical] else [])

/-- The `DataProfile` dataclass.  Correlation-matrix entries are irrational
in general (they involve square roots), so the optional matrix is modelled
by its presence flag; no claim consumes the entries, only the threshold
check above, which is carried out exactly on squares. -/
structure DataProfile where
  total_records : Nat
  field_types : List (String × String)
  numeric_fields : List String
  categorical_fields : List String
  temporal_fields : List String
  unique_values : List (String × Nat)
  null_percentages : List (String × ℚ)
  data_characteristics : List DataCharacteristic
  has_correlation_matrix : Bool

/-- The source's field-type tag for one column. -/
def fieldTypeTag (c : Column) : String :=
  match colDtype c.values with
  | .int64 => "numeric"
  | .float64 => "numeric"
  | .obj => if temporalName c.name then "temporal" else "categorical"

/-- `ChartRecommendationService.analyze_data`.  An empty dataset (no rows)
yields the zeroed profile; the defensive `except` branch of the source is
unreachable in the model (all operations are total here). -/
def analyzeData (f : Frame) : DataProfile :=
  if nrows f = 0 then
    { total_records := 0, field_types := [], numeric_fields := [],
      categorical_fields := [], temporal_fields := [], unique_values := [],
      null_percentages := [], data_characteristics := [],
      has_correlation_matrix := false }
  else
    let numeric := (f.filter (fun c => fieldTypeTag c == "numeric")).map (fun c => c.name)
    let categorical := (f.filter (fun c => fieldTypeTag c == "categorical")).map (fun c => c.name)
    let temporal := (f.filter (fun c => fieldTypeTag c == "temporal")).map (fun c => c.name)
    { total_records := nrows f,
      field_types := f.map (fun c => (c.name, fieldTypeTag c)),
      numeric_fields := numeric,
      categorical_fields := categorical,
      temporal_fields := temporal,
      unique_values := f.map (fun c => (c.name, nunique c.values)),
      null_percentages := f.map (fun c => (c.name, nullPct c.values)),
      data_characteristics := identifyCharacteristics f numeric categorical temporal,
      has_correlation_matrix := decide (numeric.length ≥ 2) }

/-- Strong pairwise correlation as the spec words it ("the maximum absolute
pairwise correlation between two distinct numeric fields exceeds 0.7"),
for the comparison against the code's full-matrix check. -/
def specStrongPairwiseCorrelation (f : Frame) : Bool :=
  let cols := (f.filter (fun c => fieldTypeTag c == "numeric")).map
    (fun c => colNums c.values)
  cols.enum.any (fun ix =>
    cols.enum.any (fun jy => ix.1 ≠ jy.1 && corrAbsExceeds ix.2 jy.2))

/-- The `ChartType` enum. -/
inductive ChartType where
  | bar
  | line
  | pie
  | scatter
  | area
  | histogram
  | heatmap
  | box
deriving DecidableEq, Repr

/-- `.value` of a `ChartType` member. -/
def ChartType.value : ChartType → String
  | .bar => "bar"
  | .line => "line"
  | .pie => "pie"
  | .scatter => "scatter"
  | .area => "area"
  | .histogram => "histogram"
  | .heatmap => "heatmap"
  | .box => "box"

/-- The `ChartRecommendation` dataclass. -/
structure Recommendation where
  chart_type : ChartType
  confidence : ℚ
  reasoning : String
  suggested_fields : List (String × String)
  configuration : List (String × PyVal)

/-- `ChartRecommendationService._apply_characteristic_rules`.  The `intent`
argument is passed by the source and unused there. -/
def applyCharacteristicRules (c : DataCharacteristic) (p : DataProfile)
    (_intent : Option String) : List Recommendation :=
  match c with
  | .temporal =>
    match p.temporal_fields, p.numeric_fields with
    | t :: _, n :: _ =>
      [{ chart_type := .line, confidence := 9/10,
         reasoning := "Time series data is best visualized with line charts",
         suggested_fields := [("x_axis", t), ("y_axis", n)],
         configuration :=
           [("smooth_line", .bool true),
            ("show_points", .bool (decide (p.temporal_fields.length < 50)))] },
       { chart_type := .area, confidence := 8/10,
         reasoning := "Area charts show cumulative trends over time",
         suggested_fields := [("x_axis", t), ("y_axis", n)],
         configuration := [("fill_opacity", .float (3/10))] }]
    | _, _ => []
  | .categorical =>
    match p.categorical_fields, p.numeric_fields with
    | cat :: _, n :: _ =>
      let unique_count :=
        ((p.unique_values.find? (fun kv => kv.1 == cat)).map (fun kv => kv.2)).getD 0
      (if unique_count ≤ 8 then
        [{ chart_type := .pie, confidence := 85/100,
           reasoning := "Pie chart works well for " ++ toString unique_count
             ++ " categories",
           suggested_fields := [("label", cat), ("value", n)],
           configuration := [("show_percentages", .bool true)] }]
       else []) ++
      [{ chart_type := .bar, confidence := 8/10,
         reasoning := "Bar charts effectively compare categorical data",
         suggested_fields := [("x_axis", cat), ("y_axis", n)],
         configuration :=
           [("sort_by_value", .bool (decide (unique_count > 5))),
            ("rotate_labels", .bool (decide (unique_count > 10)))] }]
    | _, _ => []
  | .correlation =>
    match p.numeric_fields with
    | a :: b :: _ =>
      [{ chart_type := .scatter, confidence := 9/10,
         reasoning := "Scatter plots reveal correlations between variables",
         suggested_fields := [("x_axis", a), ("y_axis", b)],
         configuration :=
           [("show_trend_line", .bool true), ("point_size", .str "auto")] }]
    | _ => []
  | .distribution =>
    match p.numeric_fields with
    | n :: _ =>
      [{ chart_type := .histogram, confidence := 75/100,
         reasoning := "Histograms show data distribution patterns",
         suggested_fields := [("value", n)],
         configuration := [("bins", .str "auto"), ("show_density", .bool true)] }]
    | [] => []
  | _ => []

/-- `ChartRecommendationService._apply_intent_rules` (the elif chain of
keyword groups over the lowercased intent text). -/
def applyIntentRules (intent : String) (p : DataProfile) : List Recommendation :=
  let il := strToLower intent
  if ["trend", "over time", "timeline", "progression"].any (fun k => substrOf k il) then
    match p.temporal_fields, p.numeric_fields with
    | t :: _, n :: _ =>
      [{ chart_type := .line, confidence := 95/100,
         reasoning := "Line charts are ideal for trend analysis",
         suggested_fields := [("x_axis", t), ("y_axis", n)],
         configuration := [("show_trend_line", .bool true)] }]
    | _, _ => []
  else if ["compare", "comparison", "versus", "vs"].any (fun k => substrOf k il) then
    match p.categorical_fields, p.numeric_fields with
    | c :: _, n :: _ =>
      [{ chart_type := .bar, confidence := 9/10,
         reasoning := "Bar charts excel at comparing categories",
         suggested_fields := [("x_axis", c), ("y_axis", n)],
         configuration := [("sort_by_value", .bool true)] }]
    | _, _ => []
  else if ["distribution", "spread", "range"].any (fun k => substrOf k il) then
    match p.numeric_fields with
    | n :: _ =>
      [{ chart_type := .histogram, confidence := 9/10,
         reasoning := "Histograms show data distribution",
         suggested_fields := [("value", n)],
         configuration := [("bins", .int 20)] }]
    | [] => []
  else if ["relationship", "correlation", "association"].any (fun k => substrOf k il) then
    match p.numeric_fields with
    | a :: b :: _ =>
      [{ chart_type := .scatter, confidence := 95/100,
         reasoning := "Scatter plots reveal relationships between variables",
         suggested_fields := [("x_axis", a), ("y_axis", b)],
         configuration := [("show_correlation", .bool true)] }]
    | _ => []
  else []

/-- The user-preference dict as the engine reads it:
`preferred_chart_types` (default `[]`) and `complexity` (default
`"medium"`).  A `None` or empty (falsy) preference dict is modelled by
passing no preferences at all. -/
structure UserPreferences where
  preferred_chart_types : List String := []
  complexity : String := "medium"

/-- `ChartRecommendationService._apply_user_preferences`. -/
def applyUserPreferences (recs : List Recommendation) (prefs : UserPreferences) :
    List Recommendation :=
  let recs :=
    if !prefs.preferred_chart_types.isEmpty then
      recs.map (fun r =>
        if prefs.preferred_chart_types.contains r.chart_type.value then
          { r with confidence := min 1 (r.confidence + 1/10) }
        else r)
    else recs
  if prefs.complexity == "simple" then
    recs.map (fun r =>
      if [ChartType.bar, ChartType.pie, ChartType.line].contains r.chart_type then
        { r with confidence := min 1 (r.confidence + 1/20) }
      else r)
  else if prefs.complexity == "advanced" then
    recs.map (fun r =>
      if [ChartType.scatter, ChartType.heatmap, ChartType.box].contains r.chart_type then
        { r with confidence := min 1 (r.confidence + 1/20) }
      else r)
  else recs

/-- The candidate list `recommendations` of `recommend_charts` right before
de-duplication: characteristic rules in characteristic order, then intent
rules (`if intent:` — a supplied empty string is falsy), then the
preference adjustment over the whole list. -/
def candidateRecs (f : Frame) (intent : Option String)
    (prefs : Option UserPreferences) : List Recommendation :=
  let p := analyzeData f
  let recs := (p.data_characteristics.map
    (fun c => applyCharacteristicRules c p intent)).flatten
  let recs := recs ++
    (match intent with
     | some i => if i == "" then [] else applyIntentRules i p
     | Option.none => [])
  match prefs with
  | some pr => applyUserPreferences recs pr
  | Option.none => recs

/-- One step of the `unique_recommendations` dict build: Python dict update
keeps the key's position and replaces the value only on a strictly greater
confidence. -/
def upsert (acc : List Recommendation) (r : Recommendation) : List Recommendation :=
  match acc with
  | [] => [r]
  | x :: xs =>
    if x.chart_type = r.chart_type then
      (if r.confidence > x.confidence then r :: xs else x :: xs)
    else x :: upsert xs r

/-- The `unique_recommendations` dict of `recommend_charts`, as its
insertion-ordered value list. -/
def dedupByType (l : List Recommendation) : List Recommendation :=
  l.foldl upsert []

/-- Insertion of one element into a descending-sorted list, placing it
before equal confidences coming from later positions. -/
def insertDesc (r : Recommendation) : List Recommendation → List Recommendation
  | [] => [r]
  | x :: xs => if r.confidence < x.confidence then x :: insertDesc r xs
               else r :: x :: xs

/-- Python's stable `sorted(..., key=confidence, reverse=True)`: descending
confidence, equal confidences in original order.  Stability and sortedness
determine the result uniquely, so this insertion sort is a faithful model. -/
def sortDesc : List Recommendation → List Recommendation
  | [] => []
  | x :: xs => insertDesc x (sortDesc xs)

/-- `ChartRecommendationService.recommend_charts`. -/
def recommendCharts (f : Frame) (intent : Option String)
    (prefs : Option UserPreferences) : List Recommendation :=
  let p := analyzeData f
  if p.total_records = 0 then []
  else (sortDesc (dedupByType (candidateRecs f intent prefs))).take 5

/-! # Theorems -/

/-- The index argument passes `simple_search`'s validation iff it is a
non-empty string. -/
lemma index_valid_iff (v : PyVal) :
    (!pyTruthy v || !isStr v) = false ↔ ∃ s, v = .str s ∧ s ≠ "" := by
  cases v <;> simp [pyTruthy, isStr]

/-- The query argument passes `simple_search`'s validation iff it is a
non-empty dict. -/
lemma query_valid_iff (v : PyVal) :
    (!pyTruthy v || !(match v with | .dict _ => true | _ => false)) = false ↔
      ∃ l, v = .dict l ∧ l ≠ [] := by
  cases v <;> simp [pyTruthy]

/-- `simple_search` on validated input, written as the dispatch over the
client outcome. -/
lemma simple_search_valid_shape (s : String) (hs : s ≠ "")
    (l : List (String × PyVal)) (hl : l ≠ []) (size : Int)
    (client : Int → Except EsClientError PyVal) :
    simple_search (.str s) (.dict l) size client =
      match client (max 0 (min maxQuerySize size)) with
      | .ok resp =>
        match searchTryBody resp with
        | .ok d => .ok d
        | .error e => .ok (searchFailureDict ("Search failed: " ++ e))
      | .error .notFound => .ok (searchFailureDict ("Index '" ++ s ++ "' not found"))
      | .error (.other e) => .ok (searchFailureDict ("Search failed: " ++ e)) := by
  rw [simple_search]
  have h1 : (!pyTruthy (.str s) || !isStr (.str s)) = false := by
    simp [pyTruthy, isStr, hs]
  have h2 : (!pyTruthy (.dict l) ||
      !(match PyVal.dict l with | .dict _ => true | _ => false)) = false := by
    simp [pyTruthy, hl]
  rw [h1, h2]
  rfl

/-- The not-found failure message is never empty. -/
lemma indexNotFoundMsg_ne (s : String) : ("Index '" ++ s ++ "' not found") ≠ "" := by
  intro h
  have h2 := congrArg String.length h
  simp [String.length_append] at h2
  exact absurd h2.1.1 (by decide)

/-- The generic search-failure message is never empty. -/
lemma searchFailedMsg_ne (e : String) : ("Search failed: " ++ e) ≠ "" := by
  intro h
  have h2 := congrArg String.length h
  simp [String.length_append] at h2
  exact absurd h2.1 (by decide)

/-- On a malformed index argument, `simple_search` raises the validation
error. -/
lemma simple_search_invalid_index (index query : PyVal) (size : Int)
    (client : Int → Except EsClientError PyVal)
    (h : ¬ ∃ s, index = .str s ∧ s ≠ "") :
    simple_search index query size client = .error "Invalid index name" := by
  cases index with
  | str s =>
    have hs : s = "" := by
      by_contra hs
      exact h ⟨s, rfl, hs⟩
    subst hs
    rfl
  | none => rfl
  | bool b => simp [simple_search, pyTruthy, isStr]
  | int n => simp [simple_search, pyTruthy, isStr]
  | float q => simp [simple_search, pyTruthy, isStr]
  | list l => simp [simple_search, pyTruthy, isStr]
  | dict l => simp [simple_search, pyTruthy, isStr]

/-- On a valid index but malformed query, `simple_search` raises the query
validation error. -/
lemma simple_search_invalid_query (s : String) (hs : s ≠ "") (query : PyVal)
    (size : Int) (client : Int → Except EsClientError PyVal)
    (h : ¬ ∃ l, query = .dict l ∧ l ≠ []) :
    simple_search (.str s) query size client = .error "Invalid query structure" := by
  have h1 : (!pyTruthy (.str s) || !isStr (.str s)) = false := by
    simp [pyTruthy, isStr, hs]
  cases query with
  | dict l =>
    have hl : l = [] := by
      by_contra hl
      exact h ⟨l, rfl, hl⟩
    subst hl
    rw [simple_search, h1]
    rfl
  | none => rw [simple_search, h1] <;> simp [pyTruthy]
  | bool b => rw [simple_search, h1] <;> simp [pyTruthy]
  | int n => rw [simple_search, h1] <;> simp [pyTruthy]
  | float q => rw [simple_search, h1] <;> simp [pyTruthy]
  | str t => rw [simple_search, h1] <;> simp [pyTruthy]
  | list l => rw [simple_search, h1] <;> simp [pyTruthy]

/-- C1: `simple_search` raises a validation error exactly when the supplied
index is empty or not a string, or the query is empty or not a dict; for
every valid index and query whose underlying client call fails (index not
found included), it returns — rather than raises — a record with zero total
hits, empty data, empty aggregations and a non-empty error string. -/
theorem C1_simple_search_failure_contract
    (index query : PyVal) (size : Int)
    (client : Int → Except EsClientError PyVal) :
    ((∃ e, simple_search index query size client = .error e) ↔
      ¬ ((∃ s, index = .str s ∧ s ≠ "") ∧ ∃ l, query = .dict l ∧ l ≠ [])) ∧
    (∀ err, (∃ s, index = .str s ∧ s ≠ "") → (∃ l, query = .dict l ∧ l ≠ []) →
      client (max 0 (min maxQuerySize size)) = .error err →
      ∃ out, simple_search index query size client = .ok out ∧
        dictGet out "total_hits" = some (.int 0) ∧
        dictGet out "data" = some (.list []) ∧
        dictGet out "aggregations" = some (.dict []) ∧
        ∃ msg, dictGet out "error" = some (.str msg) ∧ msg ≠ "") := by
  constructor
  · constructor
    · rintro ⟨e, he⟩ ⟨⟨s, rfl, hs⟩, ⟨l, rfl, hl⟩⟩
      rw [simple_search_valid_shape s hs l hl] at he
      cases hc : client (max 0 (min maxQuerySize size)) with
      | ok resp =>
        rw [hc] at he
        cases hb : searchTryBody resp <;> simp [hb] at he
      | error err =>
        rw [hc] at he
        cases err <;> simp at he
    · intro hnv
      by_cases hidx : ∃ s, index = .str s ∧ s ≠ ""
      · have hqry : ¬ ∃ l, query = .dict l ∧ l ≠ [] := fun h => hnv ⟨hidx, h⟩
        obtain ⟨s, rfl, hs⟩ := hidx
        exact ⟨_, simple_search_invalid_query s hs query size client hqry⟩
      · exact ⟨_, simple_search_invalid_index index query size client hidx⟩
  · rintro err ⟨s, rfl, hs⟩ ⟨l, rfl, hl⟩ hc
    rw [simple_search_valid_shape s hs l hl, hc]
    cases err with
    | notFound =>
      exact ⟨_, rfl, rfl, rfl, rfl, _, rfl, indexNotFoundMsg_ne s⟩
    | other e =>
      exact ⟨_, rfl, rfl, rfl, rfl, _, rfl, searchFailedMsg_ne e⟩

/-- Witness for C1: a concrete valid search whose client raises. -/
theorem C1_simple_search_failure_contract_witness :
    ∃ out, simple_search (.str "logs") (.dict [("query", .dict [])]) 10
        (fun _ => .error (.other "boom")) = .ok out ∧
      dictGet out "total_hits" = some (.int 0) ∧
      dictGet out "data" = some (.list []) ∧
      dictGet out "aggregations" = some (.dict []) ∧
      ∃ msg, dictGet out "error" = some (.str msg) ∧ msg ≠ "" :=
  (C1_simple_search_failure_contract (.str "logs") (.dict [("query", .dict [])])
    10 (fun _ => .error (.other "boom"))).2 (.other "boom")
    ⟨"logs", rfl, by decide⟩
    ⟨[("query", .dict [])], rfl, List.cons_ne_nil _ _⟩
    rfl

/-- The code's post-named-index fallback chain agrees with the spec's. -/
lemma fallback_eq (ia : List (String × PyVal)) (avail : List String) :
    determineTargetIndex.determineTargetIndexRest ia avail =
      specFallbackIndex ia avail := by
  rw [determineTargetIndex.determineTargetIndexRest, specFallbackIndex]
  by_cases h1 : "sample-sales" ∈ avail <;>
    by_cases h2 : pyInStrList ((dictGet ia "intent").getD (.str "general"))
      ["chart", "aggregate", "search"] = true <;>
    by_cases h3 : "sample-logs" ∈ avail <;>
    by_cases h4 : pyInStrList ((dictGet ia "intent").getD (.str "general"))
      ["search", "filter"] = true <;>
    simp_all [pyInStrList, List.elem_iff]

/-- C4: the target-index selection implements exactly the spec's rule —
named index when available; else sample-sales for chart/aggregate/search;
else sample-logs for search/filter; else the first non-system index; else
the first index; none when no index is available. -/
theorem C4_target_index_selection :
    ∀ (intent_analysis : List (String × PyVal)) (available : List String),
      determineTargetIndex intent_analysis available =
        specTargetIndexRule intent_analysis available := by
  intro ia avail
  cases avail with
  | nil => rfl
  | cons a rest =>
    rw [determineTargetIndex, specTargetIndexRule]
    case x_1 =>
      intro h
      exact List.noConfusion h
    cases hv : dictGet ia "index" with
    | none => simp [hv, fallback_eq]
    | some v =>
      cases v with
      | str s =>
        by_cases hs : s = ""
        · subst hs
          simp [hv, fallback_eq]
        · by_cases hm : s ∈ (a :: rest)
          · simp [hv, hs, hm, List.elem_iff]
          · simp [hv, hs, hm, List.elem_iff, fallback_eq]
      | none => simp [hv, fallback_eq]
      | bool b => simp [hv, fallback_eq]
      | int n => simp [hv, fallback_eq]
      | float q => simp [hv, fallback_eq]
      | list l => simp [hv, fallback_eq]
      | dict d => simp [hv, fallback_eq]

/-- C9: when the cache client's delete raises, `DELETE /session/{id}`
answers 404 "Session not found" with the store unchanged (the session key,
if present, remains), and a genuinely absent session yields the same 404
response — the two cases are indistinguishable to the caller. -/
theorem C9_delete_session_outage
    (store : List (String × PyVal)) (session_id : String) :
    deleteSessionRoute store session_id true =
      (store, ⟨404, "Session not found"⟩) ∧
    (store.find? (fun kv => kv.1 == "session:" ++ session_id) = Option.none →
      (deleteSessionRoute store session_id false).2 =
        ⟨404, "Session not found"⟩) := by
  constructor
  · rfl
  · intro h
    have hany : store.any (fun kv => kv.1 == "session:" ++ session_id) = false :=
      List.any_eq_false.mpr (List.find?_eq_none.mp h)
    simp [deleteSessionRoute, redisDeleteSession, redisDelete,
      redisClientDelete, hany]

/-- Witness for C9: a store holding one unrelated session. -/
theorem C9_delete_session_outage_witness :
    (deleteSessionRoute [("session:a", PyVal.str "x")] "b" false).2 =
      ⟨404, "Session not found"⟩ :=
  (C9_delete_session_outage [("session:a", PyVal.str "x")] "b").2 rfl

/-- Every successful validation returns `buildValidated` applied to a
normalized intent and a normalized chart type. -/
lemma validate_ok_shape (d out : List (String × PyVal))
    (h : validateIntentAnalysis d = .ok out) :
    ∃ intent chart_type,
      out = buildValidated d intent chart_type ∧
      intent ∈ validIntents ∧
      (pyTruthy chart_type = false ∨ chart_type = .none ∨
        ∃ s, chart_type = .str s ∧ strToLower s ∈ validChartTypes) := by
  unfold validateIntentAnalysis at h
  rcases hi : (dictGet d "intent").getD (.str "general") with _ | b | n | q | si | li | di <;>
    rw [hi] at h <;>
    try simp at h
  -- the surviving case: the intent value is a string
  refine ⟨if strToLower si ∈ validIntents then strToLower si else "general", ?_⟩
  have hintent : (if strToLower si ∈ validIntents then strToLower si else "general")
      ∈ validIntents := by
    by_cases hvi : strToLower si ∈ validIntents
    · rw [if_pos hvi]
      exact hvi
    · rw [if_neg hvi]
      decide
  by_cases hct : pyTruthy ((dictGet d "chart_type").getD .none) = true
  · rcases hcv : (dictGet d "chart_type").getD .none with _ | cb | cn | cq | cs | cl | cd <;>
      rw [hcv] at h hct <;> rw [if_pos hct] at h <;> simp at h
    -- chart type is a truthy string
    · by_cases hcc : strToLower cs ∈ validChartTypes
      · rw [if_pos hcc] at h
        exact ⟨_, h.symm, hintent, Or.inr (Or.inr ⟨cs, rfl, hcc⟩)⟩
      · rw [if_neg hcc] at h
        exact ⟨_, h.symm, hintent, Or.inr (Or.inl rfl)⟩
  · rw [if_neg hct] at h
    simp at h
    refine ⟨_, h.symm, hintent, Or.inl ?_⟩
    simpa using hct

/-- The keys of the validated dict, independent of the values. -/
lemma buildValidated_keys (d : List (String × PyVal)) (intent : String)
    (chart_type : PyVal) :
    (buildValidated d intent chart_type).map Prod.fst =
      ["intent", "index", "time_range", "fields", "chart_type",
       "aggregation_type", "query_description"] := rfl

/-- C10: every intent analysis `analyze_query_intent` returns — from
successful normalization or from either fallback — carries exactly the
seven keys intent, index, time_range, fields, chart_type,
aggregation_type, query_description; the confidence and context_relevance
fields the prompt requests are never present. -/
theorem C10_intent_analysis_keys (outcome : IntentModelOutcome) :
    (analyzeQueryIntent outcome).map Prod.fst =
      ["intent", "index", "time_range", "fields", "chart_type",
       "aggregation_type", "query_description"] ∧
    dictGet (analyzeQueryIntent outcome) "confidence" = Option.none ∧
    dictGet (analyzeQueryIntent outcome) "context_relevance" = Option.none := by
  cases outcome with
  | raised => exact ⟨rfl, rfl, rfl⟩
  | unparsed => exact ⟨rfl, rfl, rfl⟩
  | parsed v =>
    have hshape : analyzeQueryIntent (.parsed v) =
        if pyTruthy v then
          match v with
          | .dict dd =>
            match validateIntentAnalysis dd with
            | .ok out => out
            | .error _ => fallbackIntentAnalysis "Error analyzing intent"
          | _ => fallbackIntentAnalysis "Error analyzing intent"
        else fallbackIntentAnalysis "Unable to parse intent" := rfl
    rw [hshape]
    by_cases hv : pyTruthy v = true
    · rw [if_pos hv]
      cases v with
      | dict dd =>
        cases hval : validateIntentAnalysis dd with
        | error e =>
          simp only [hval]
          exact ⟨rfl, rfl, rfl⟩
        | ok out =>
          obtain ⟨intent, ct, rfl, -, -⟩ := validate_ok_shape dd out hval
          simp only [hval]
          exact ⟨buildValidated_keys dd intent ct, rfl, rfl⟩
      | none => exact ⟨rfl, rfl, rfl⟩
      | bool b => exact ⟨rfl, rfl, rfl⟩
      | int n => exact ⟨rfl, rfl, rfl⟩
      | float q => exact ⟨rfl, rfl, rfl⟩
      | str s => exact ⟨rfl, rfl, rfl⟩
      | list l => exact ⟨rfl, rfl, rfl⟩
    · rw [if_neg hv]
      exact ⟨rfl, rfl, rfl⟩

/-- C6 counterexample: the chart type `"LINE"` — differing from the
enumerated literal `"line"` only in letter case — is passed through to the
validated output unchanged, neither discarded nor normalized. -/
theorem C6_chart_type_case_passthrough :
    (validateIntentAnalysis
        [("intent", .str "chart"), ("chart_type", .str "LINE")]).toOption.bind
      (fun out => dictGet out "chart_type") = some (.str "LINE") ∧
    "LINE" ∉ validChartTypes ∧ PyVal.str "LINE" ≠ PyVal.none :=
  ⟨by rfl, by decide, fun h => PyVal.noConfusion h⟩

/-- C6 (amended): in every successfully validated analysis, intent is one
of the six literals; chart_type is absent, a falsy supplied value kept
unchanged, or a string whose lowercasing is among the five chart literals
(its original case preserved); time_range is absent, a falsy value kept
unchanged, or exactly one of the five tags; fields is a list or absent. -/
theorem C6_validate_normalization (d out : List (String × PyVal))
    (h : validateIntentAnalysis d = .ok out) :
    (∃ i, dictGet out "intent" = some (.str i) ∧ i ∈ validIntents) ∧
    (∃ v, dictGet out "chart_type" = some v ∧
      (v = .none ∨ pyTruthy v = false ∨
        ∃ s, v = .str s ∧ strToLower s ∈ validChartTypes)) ∧
    (∃ v, dictGet out "time_range" = some v ∧
      (v = .none ∨ pyTruthy v = false ∨
        ∃ s, v = .str s ∧ s ∈ validTimeRanges)) ∧
    (∃ v, dictGet out "fields" = some v ∧ (v = .none ∨ ∃ l, v = .list l)) := by
  obtain ⟨intent, ct, rfl, hint, hct⟩ := validate_ok_shape d out h
  refine ⟨⟨intent, rfl, hint⟩, ⟨ct, rfl, ?_⟩, ⟨_, rfl, ?_⟩, ⟨_, rfl, ?_⟩⟩
  · rcases hct with h1 | h1 | h1
    · exact Or.inr (Or.inl h1)
    · exact Or.inl h1
    · exact Or.inr (Or.inr h1)
  · -- time_range
    by_cases h1 : (pyTruthy ((dictGet d "time_range").getD .none) &&
        !pyInStrList ((dictGet d "time_range").getD .none) validTimeRanges) = true
    · rw [if_pos h1]
      exact Or.inl rfl
    · rw [if_neg h1]
      simp only [Bool.and_eq_true, Bool.not_eq_true', not_and] at h1
      by_cases h2 : pyTruthy ((dictGet d "time_range").getD .none) = true
      · have h3 := h1 h2
        rcases hv : (dictGet d "time_range").getD .none with _ | b | n | q | s | l | dd <;>
          rw [hv] at h3 <;> simp [pyInStrList] at h3
        exact Or.inr (Or.inr ⟨s, rfl, h3⟩)
      · exact Or.inr (Or.inl (by simpa using h2))
  · -- fields
    rcases hf : dictGet d "fields" with _ | v
    · exact Or.inl rfl
    · cases v with
      | list l => exact Or.inr ⟨l, rfl⟩
      | none => exact Or.inl rfl
      | bool b => exact Or.inl rfl
      | int n => exact Or.inl rfl
      | float q => exact Or.inl rfl
      | str s => exact Or.inl rfl
      | dict dd => exact Or.inl rfl

/-- Witness for the amended C6 at a concrete parsed analysis. -/
theorem C6_validate_normalization_witness :
    (∃ i, dictGet [("intent", PyVal.str "chart"), ("index", PyVal.none),
        ("time_range", PyVal.none), ("fields", PyVal.none),
        ("chart_type", PyVal.str "LINE"), ("aggregation_type", PyVal.none),
        ("query_description", PyVal.str "User query")] "intent" =
          some (.str i) ∧ i ∈ validIntents) ∧
    (∃ v, dictGet [("intent", PyVal.str "chart"), ("index", PyVal.none),
        ("time_range", PyVal.none), ("fields", PyVal.none),
        ("chart_type", PyVal.str "LINE"), ("aggregation_type", PyVal.none),
        ("query_description", PyVal.str "User query")] "chart_type" = some v ∧
      (v = .none ∨ pyTruthy v = false ∨
        ∃ s, v = .str s ∧ strToLower s ∈ validChartTypes)) ∧
    (∃ v, dictGet [("intent", PyVal.str "chart"), ("index", PyVal.none),
        ("time_range", PyVal.none), ("fields", PyVal.none),
        ("chart_type", PyVal.str "LINE"), ("aggregation_type", PyVal.none),
        ("query_description", PyVal.str "User query")] "time_range" = some v ∧
      (v = .none ∨ pyTruthy v = false ∨
        ∃ s, v = .str s ∧ s ∈ validTimeRanges)) ∧
    (∃ v, dictGet [("intent", PyVal.str "chart"), ("index", PyVal.none),
        ("time_range", PyVal.none), ("fields", PyVal.none),
        ("chart_type", PyVal.str "LINE"), ("aggregation_type", PyVal.none),
        ("query_description", PyVal.str "User query")] "fields" = some v ∧
      (v = .none ∨ ∃ l, v = .list l)) :=
  C6_validate_normalization
    [("intent", PyVal.str "chart"), ("chart_type", PyVal.str "LINE")]
    [("intent", PyVal.str "chart"), ("index", PyVal.none),
     ("time_range", PyVal.none), ("fields", PyVal.none),
     ("chart_type", PyVal.str "LINE"), ("aggregation_type", PyVal.none),
     ("query_description", PyVal.str "User query")] rfl

/-- Python's `max(..., key=...)` scan keeps its start element when nothing
scores strictly higher; with every score equal to the start's, the start
survives. -/
lemma foldl_best_all_eq {α : Type} (x : α × ℚ) (xs : List (α × ℚ)) (hx : x.2 = 0)
    (h : ∀ p ∈ xs, p.2 = 0) :
    xs.foldl (fun best p => if p.2 > best.2 then p else best) x = x := by
  induction xs generalizing x with
  | nil => rfl
  | cons y ys ih =>
    have hy : y.2 = 0 := h y (List.mem_cons_self _ _)
    have hstep : (if y.2 > x.2 then y else x) = x := by
      rw [if_neg]
      rw [hy, hx]
      exact lt_irrefl 0
    rw [List.foldl_cons, hstep]
    exact ih x hx (fun p hp => h p (List.mem_cons_of_mem _ hp))

set_option maxRecDepth 8000 in
/-- C2 counterexample: on the empty message with an empty intent analysis
every one of the ten patterns scores 0, yet the primary pattern returned is
`time_series_analysis` at confidence 0 — not `categorical_comparison` at
0.5 (Python's `max` over the always non-empty score dict returns the first
insertion-ordered key among ties, so the 0.5 fallback is unreachable). -/
theorem C2_zero_score_fallback_counterexample :
    (patternRules.all
      (fun pr => patternScore (strToLower "") [] pr.2 == 0)) = true ∧
    identifyPrimaryPattern "" [] = (QueryPattern.time_series_analysis, 0) ∧
    identifyPrimaryPattern "" [] ≠ (QueryPattern.categorical_comparison, 1/2) := by
  refine ⟨by with_unfolding_all decide, by with_unfolding_all decide,
    by with_unfolding_all decide⟩

/-- C2 (amended): whenever every pattern's score is 0, the primary-pattern
identification returns the first-declared pattern `time_series_analysis`
with confidence 0. -/
theorem C2_all_zero_primary_pattern (user_message : String)
    (intent_analysis : List (String × PyVal))
    (h : ∀ pr ∈ patternRules,
      patternScore (strToLower user_message) intent_analysis pr.2 = 0) :
    identifyPrimaryPattern user_message intent_analysis =
      (QueryPattern.time_series_analysis, 0) := by
  rw [identifyPrimaryPattern]
  simp only [patternRules, List.forall_mem_cons] at h
  obtain ⟨h1, h2, h3, h4, h5, h6, h7, h8, h9, h10, -⟩ := h
  simp only [patternRules, List.map_cons, List.map_nil, h1, h2, h3, h4, h5,
    h6, h7, h8, h9, h10]
  norm_num [List.foldl_cons, List.foldl_nil]

/-- Witness for the amended C2 at the concrete all-zero input. -/
theorem C2_all_zero_primary_pattern_witness :
    identifyPrimaryPattern "" [] = (QueryPattern.time_series_analysis, 0) :=
  C2_all_zero_primary_pattern "" [] (by with_unfolding_all decide)

/-- The profile invariant of C7: caps on the preference lists, the
complexity score in `[0,1]`, every domain-expertise score in `[0,1]`. -/
def profileInv (p : UserProfile) : Prop :=
  p.preferred_chart_types.length ≤ 5 ∧
  p.common_fields.length ≤ 10 ∧
  0 ≤ p.query_complexity ∧ p.query_complexity ≤ 1 ∧
  ∀ kv ∈ p.domain_expertise, 0 ≤ kv.2 ∧ kv.2 ≤ 1

/-- A tail slice `l[-n:]` holds at most `n` entries. -/
lemma lastN_length_le (n : Nat) (l : List α) : (lastN n l).length ≤ n := by
  simp [lastN]
  omega

/-- A fresh profile satisfies the invariant. -/
lemma freshProfile_inv (session_id : String) :
    profileInv (freshProfile session_id) := by
  refine ⟨by simp [freshProfile], by simp [freshProfile], ?_, ?_, ?_⟩
  · norm_num [freshProfile]
  · norm_num [freshProfile]
  · intro kv hkv
    simp [freshProfile] at hkv

/-- Every pattern's fixed complexity weight lies in `[0,1]`. -/
lemma complexityWeight_bounds (p : QueryPattern) :
    0 ≤ complexityWeight p ∧ complexityWeight p ≤ 1 := by
  cases p <;> exact (by with_unfolding_all decide)

/-- `assocSetQ` preserves a pointwise value predicate. -/
lemma assocSetQ_forall {P : ℚ → Prop} (k : PyVal) (v : ℚ)
    (l : List (PyVal × ℚ)) (hv : P v) (hl : ∀ kv ∈ l, P kv.2) :
    ∀ kv ∈ assocSetQ k v l, P kv.2 := by
  induction l with
  | nil =>
    intro kv hkv
    simp [assocSetQ] at hkv
    rw [hkv]
    exact hv
  | cons x xs ih =>
    intro kv hkv
    rw [assocSetQ] at hkv
    by_cases hx : pyBEq x.1 k = true
    · rw [if_pos hx] at hkv
      rcases List.mem_cons.mp hkv with h | h
      · rw [h]
        exact hv
      · exact hl kv (List.mem_cons_of_mem _ h)
    · rw [if_neg hx] at hkv
      rcases List.mem_cons.mp hkv with h | h
      · rw [h]
        exact hl x (List.mem_cons_self _ _)
      · exact ih (fun kv hkv => hl kv (List.mem_cons_of_mem _ hkv)) kv h

/-- The default-0 read of a bounded expertise dict is itself in `[0,1]`. -/
lemma assocGetQ_bounds (l : List (PyVal × ℚ)) (k : PyVal)
    (h : ∀ kv ∈ l, 0 ≤ kv.2 ∧ kv.2 ≤ 1) :
    0 ≤ assocGetQ l k 0 ∧ assocGetQ l k 0 ≤ 1 := by
  rw [assocGetQ]
  cases hf : l.find? (fun kv => pyBEq kv.1 k) with
  | none => norm_num
  | some kv =>
    simpa using h kv (List.mem_of_find?_eq_some hf)

/-- The straight-line update applies the complexity moving average. -/
lemma updateCore_complexity (existing : Option UserProfile) (session_id : String)
    (query_insight : QueryInsight) (intent_analysis : List (String × PyVal))
    (fields : List PyVal) :
    (updateCoreProfile existing session_id query_insight intent_analysis
        fields).query_complexity =
      (existing.getD (freshProfile session_id)).query_complexity * (8/10) +
        complexityWeight query_insight.pattern * (2/10) := by
  cases hb : query_insight.user_behavior_hint <;>
    (dsimp only [updateCoreProfile]; rw [hb]; split <;> rfl)

/-- The straight-line update leaves the expertise dict untouched. -/
lemma updateCore_expertise (existing : Option UserProfile) (session_id : String)
    (query_insight : QueryInsight) (intent_analysis : List (String × PyVal))
    (fields : List PyVal) :
    (updateCoreProfile existing session_id query_insight intent_analysis
        fields).domain_expertise =
      (existing.getD (freshProfile session_id)).domain_expertise := by
  cases hb : query_insight.user_behavior_hint <;>
    (dsimp only [updateCoreProfile]; rw [hb]; split <;> rfl)

/-- The straight-line update caps the common-fields list at 10. -/
lemma updateCore_common_le (existing : Option UserProfile) (session_id : String)
    (query_insight : QueryInsight) (intent_analysis : List (String × PyVal))
    (fields : List PyVal) :
    (updateCoreProfile existing session_id query_insight intent_analysis
        fields).common_fields.length ≤ 10 := by
  cases hb : query_insight.user_behavior_hint <;>
    (dsimp only [updateCoreProfile]; rw [hb]; exact lastN_length_le 10 _)

/-- The straight-line update never grows the chart-type list beyond
`max 5` of its starting length. -/
lemma updateCore_preferred_le (existing : Option UserProfile) (session_id : String)
    (query_insight : QueryInsight) (intent_analysis : List (String × PyVal))
    (fields : List PyVal) :
    (updateCoreProfile existing session_id query_insight intent_analysis
        fields).preferred_chart_types.length ≤
      max 5 (existing.getD (freshProfile session_id)).preferred_chart_types.length := by
  cases hb : query_insight.user_behavior_hint <;>
    (dsimp only [updateCoreProfile]; rw [hb]; split) <;>
    first
    | exact le_max_of_le_left (lastN_length_le 5 _)
    | exact le_max_right _ _

/-- C7: after every `update_user_profile` call — from a fresh profile or
any invariant-satisfying profile — the result keeps at most 5 preferred
chart types and at most 10 common fields, its complexity equals
`0.8·previous + 0.2·pattern_weight` and stays in `[0,1]`, every
domain-expertise score stays in `[0,1]`, and a satisfaction signal above
0.7 sets the turn's index score to the previous score plus 0.1 capped at
1. -/
theorem C7_update_user_profile_invariants
    (existing : Option UserProfile) (session_id : String)
    (query_insight : QueryInsight) (intent_analysis : List (String × PyVal))
    (user_feedback : Option (List (String × PyVal))) (p' : UserProfile)
    (hInv : ∀ p, existing = some p → profileInv p)
    (hok : updateUserProfile existing session_id query_insight intent_analysis
      user_feedback = .ok p') :
    profileInv (freshProfile session_id) ∧
    profileInv p' ∧
    p'.query_complexity =
      (existing.getD (freshProfile session_id)).query_complexity * (8/10) +
        complexityWeight query_insight.pattern * (2/10) ∧
    (∀ fb, user_feedback = some fb → fb ≠ [] →
      pyGtNum ((dictGet fb "satisfaction").getD (.int 0)) (7/10) = .ok true →
      p'.domain_expertise =
        assocSetQ ((dictGet intent_analysis "index").getD (.str "general"))
          (min 1 (assocGetQ
            (existing.getD (freshProfile session_id)).domain_expertise
            ((dictGet intent_analysis "index").getD (.str "general")) 0 + 1/10))
          (existing.getD (freshProfile session_id)).domain_expertise) := by
  have hbase : profileInv (existing.getD (freshProfile session_id)) := by
    cases existing with
    | none => exact freshProfile_inv session_id
    | some p => exact hInv p rfl
  obtain ⟨hb1, hb2, hb3, hb4, hb5⟩ := hbase
  have hw := complexityWeight_bounds query_insight.pattern
  rw [updateUserProfile] at hok
  cases hIter : pyIter ((dictGet intent_analysis "fields").getD (.list [])) with
  | error e =>
    rw [hIter] at hok
    simp at hok
  | ok flds =>
    rw [hIter] at hok
    have hcq := updateCore_complexity existing session_id query_insight
      intent_analysis flds
    have hce := updateCore_expertise existing session_id query_insight
      intent_analysis flds
    have hcc := updateCore_common_le existing session_id query_insight
      intent_analysis flds
    have hcp := updateCore_preferred_le existing session_id query_insight
      intent_analysis flds
    have hqc0 : 0 ≤ (updateCoreProfile existing session_id query_insight
        intent_analysis flds).query_complexity := by
      rw [hcq]
      nlinarith [hw.1, hw.2]
    have hqc1 : (updateCoreProfile existing session_id query_insight
        intent_analysis flds).query_complexity ≤ 1 := by
      rw [hcq]
      nlinarith [hw.1, hw.2]
    have hpc : (updateCoreProfile existing session_id query_insight
        intent_analysis flds).preferred_chart_types.length ≤ 5 :=
      le_trans hcp (max_le le_rfl hb1)
    have hcoreInv : profileInv (updateCoreProfile existing session_id
        query_insight intent_analysis flds) :=
      ⟨hpc, hcc, hqc0, hqc1, by rw [hce]; exact hb5⟩
    cases user_feedback with
    | none =>
      simp only [Except.ok.injEq] at hok
      subst hok
      exact ⟨freshProfile_inv _, hcoreInv, hcq,
        fun fb hfb => absurd hfb (by simp)⟩
    | some fb =>
      dsimp only at hok
      by_cases hfb : fb.isEmpty = true
      · simp only [hfb, Bool.not_true, Bool.false_eq_true, if_false,
          Except.ok.injEq] at hok
        subst hok
        refine ⟨freshProfile_inv _, hcoreInv, hcq, ?_⟩
        intro fb' hfb' hne hsat
        cases hfb'
        exact absurd (List.isEmpty_iff.mp hfb) hne
      · have hfbF : fb.isEmpty = false := by
          cases hfe : fb.isEmpty
          · rfl
          · exact absurd hfe hfb
        rw [hfbF] at hok
        simp only [Bool.not_false, if_true] at hok
        cases hSat : pyGtNum ((dictGet fb "satisfaction").getD (.int 0)) (7/10) with
        | error e =>
          rw [hSat] at hok
          simp at hok
        | ok b =>
          rw [hSat] at hok
          cases b with
          | false =>
            simp only [Except.ok.injEq] at hok
            subst hok
            refine ⟨freshProfile_inv _, hcoreInv, hcq, ?_⟩
            intro fb' hfb' hne hsat
            cases hfb'
            exact absurd (hSat.symm.trans hsat) (by simp)
          | true =>
            simp only [Except.ok.injEq] at hok
            subst hok
            refine ⟨freshProfile_inv _, ?_, hcq, ?_⟩
            · refine ⟨hpc, hcc, hqc0, hqc1, ?_⟩
              have hbounds := assocGetQ_bounds
                ((updateCoreProfile existing session_id query_insight
                  intent_analysis flds).domain_expertise)
                ((dictGet intent_analysis "index").getD (.str "general"))
                (by rw [hce]; exact hb5)
              refine assocSetQ_forall (P := fun q => 0 ≤ q ∧ q ≤ 1) _ _ _
                ⟨?_, min_le_left _ _⟩ ?_
              · exact le_min (by norm_num) (by linarith [hbounds.1])
              · rw [hce]
                exact hb5
            · intro fb' hfb' hne hsat
              cases hfb'
              rw [hce]

/-- Witness for C7: one concrete satisfied-feedback update from a fresh
profile. -/
theorem C7_update_user_profile_invariants_witness :
    profileInv ⟨"s", .casual, [.str "bar"], [.str "region"], 23/50,
      [(.str "sample-sales", 1/10)], [("aggregation_summary", 1)]⟩ :=
  (C7_update_user_profile_invariants Option.none "s"
    ⟨.aggregation_summary, 1/2, "", [], [], Option.none⟩
    [("chart_type", .str "bar"), ("fields", .list [.str "region"]),
     ("index", .str "sample-sales")]
    (some [("satisfaction", .float (9/10))])
    ⟨"s", .casual, [.str "bar"], [.str "region"], 23/50,
      [(.str "sample-sales", 1/10)], [("aggregation_summary", 1)]⟩
    (fun p hp => Option.noConfusion hp)
    (by with_unfolding_all rfl)).2.1

/-! ### Sorting and de-duplication machinery for `recommend_charts` -/

/-- Inserting into the descending sort permutes. -/
lemma insertDesc_perm (r : Recommendation) (l : List Recommendation) :
    List.Perm (insertDesc r l) (r :: l) := by
  induction l with
  | nil => rfl
  | cons x xs ih =>
    rw [insertDesc]
    split
    · exact ((ih.cons x).trans (List.Perm.swap _ _ _))
    · rfl

/-- The descending sort permutes its input. -/
lemma sortDesc_perm (l : List Recommendation) : List.Perm (sortDesc l) l := by
  induction l with
  | nil => rfl
  | cons x xs ih => exact (insertDesc_perm x (sortDesc xs)).trans (ih.cons x)

/-- Membership through `insertDesc`. -/
lemma mem_insertDesc {y r : Recommendation} {l : List Recommendation} :
    y ∈ insertDesc r l ↔ y = r ∨ y ∈ l :=
  ⟨fun h => List.mem_cons.mp ((insertDesc_perm r l).mem_iff.mp h),
   fun h => (insertDesc_perm r l).mem_iff.mpr (List.mem_cons.mpr h)⟩

/-- `insertDesc` preserves descending sortedness. -/
lemma insertDesc_pairwise (r : Recommendation) (l : List Recommendation)
    (h : l.Pairwise (fun a b => b.confidence ≤ a.confidence)) :
    (insertDesc r l).Pairwise (fun a b => b.confidence ≤ a.confidence) := by
  induction l with
  | nil => simp [insertDesc]
  | cons x xs ih =>
    rw [insertDesc]
    rcases List.pairwise_cons.mp h with ⟨hx, hxs⟩
    split
    · rename_i hlt
      refine List.pairwise_cons.mpr ⟨?_, ih hxs⟩
      intro y hy
      rcases mem_insertDesc.mp hy with rfl | hy
      · exact le_of_lt hlt
      · exact hx y hy
    · rename_i hge
      refine List.pairwise_cons.mpr ⟨?_, h⟩
      intro y hy
      rcases List.mem_cons.mp hy with rfl | hy
      · exact le_of_not_lt hge
      · exact le_trans (hx y hy) (le_of_not_lt hge)

/-- The descending sort is sorted: confidences never increase. -/
lemma sortDesc_sorted (l : List Recommendation) :
    (sortDesc l).Pairwise (fun a b => b.confidence ≤ a.confidence) := by
  induction l with
  | nil => simp [sortDesc]
  | cons x xs ih => exact insertDesc_pairwise x (sortDesc xs) ih

/-- When the head already dominates every confidence, the sort keeps it in
front (the stable sort keeps the earliest element among ties). -/
lemma sortDesc_head_max (r0 : Recommendation) (t : List Recommendation)
    (h : ∀ x ∈ t, x.confidence ≤ r0.confidence) :
    sortDesc (r0 :: t) = r0 :: sortDesc t := by
  rw [sortDesc]
  cases hs : sortDesc t with
  | nil => rfl
  | cons y ys =>
    rw [insertDesc, if_neg]
    intro hlt
    have hy : y ∈ t := (sortDesc_perm t).mem_iff.mp (hs ▸ List.mem_cons_self y ys)
    exact absurd (h y hy) (not_le.mpr hlt)

/-- Pairwise distinctness of chart types. -/
def typesNodup (l : List Recommendation) : Prop :=
  l.Pairwise (fun a b => a.chart_type ≠ b.chart_type)

/-- Each element of an upsert comes from the dict or is the new entry. -/
lemma upsert_mem {y x : Recommendation} {acc : List Recommendation}
    (h : y ∈ upsert acc x) : y ∈ acc ∨ y = x := by
  induction acc with
  | nil =>
    rw [upsert] at h
    simp at h
    exact Or.inr h
  | cons a as ih =>
    rw [upsert] at h
    split at h
    · split at h <;> rcases List.mem_cons.mp h with rfl | h
      · exact Or.inr rfl
      · exact Or.inl (List.mem_cons_of_mem _ h)
      · exact Or.inl (List.mem_cons_self _ _)
      · exact Or.inl (List.mem_cons_of_mem _ h)
    · rcases List.mem_cons.mp h with rfl | h
      · exact Or.inl (List.mem_cons_self _ _)
      · rcases ih h with h | h
        · exact Or.inl (List.mem_cons_of_mem _ h)
        · exact Or.inr h

/-- Upsert keeps chart types pairwise distinct. -/
lemma upsert_typesNodup (x : Recommendation) (acc : List Recommendation)
    (h : typesNodup acc) : typesNodup (upsert acc x) := by
  induction acc with
  | nil => simp [upsert, typesNodup]
  | cons a as ih =>
    rw [upsert]
    rcases List.pairwise_cons.mp h with ⟨ha, has⟩
    split
    · rename_i hty
      split
      · refine List.pairwise_cons.mpr ⟨?_, has⟩
        intro y hy
        rw [← hty]
        exact ha y hy
      · exact h
    · rename_i hty
      refine List.pairwise_cons.mpr ⟨?_, ih has⟩
      intro y hy
      rcases upsert_mem hy with hy | rfl
      · exact ha y hy
      · exact hty

/-- `R` dominates `S` when every candidate in `S` has an entry in `R` of
the same chart type with at least its confidence. -/
def Dom (R S : List Recommendation) : Prop :=
  ∀ c ∈ S, ∃ r ∈ R, r.chart_type = c.chart_type ∧ c.confidence ≤ r.confidence

/-- Every old dict entry stays dominated through an upsert. -/
lemma upsert_dom_old (x : Recommendation) (acc : List Recommendation) :
    Dom (upsert acc x) acc := by
  induction acc with
  | nil => intro c hc; cases hc
  | cons a as ih =>
    intro c hc
    rw [upsert]
    split
    · rename_i hty
      split
      · rename_i hconf
        rcases List.mem_cons.mp hc with rfl | hc
        · exact ⟨x, List.mem_cons_self _ _, hty.symm, le_of_lt hconf⟩
        · exact ⟨c, List.mem_cons_of_mem _ hc, rfl, le_rfl⟩
      · rename_i hconf
        rcases List.mem_cons.mp hc with rfl | hc
        · exact ⟨c, List.mem_cons_self _ _, rfl, le_rfl⟩
        · exact ⟨c, List.mem_cons_of_mem _ hc, rfl, le_rfl⟩
    · rcases List.mem_cons.mp hc with rfl | hc
      · exact ⟨c, List.mem_cons_self _ _, rfl, le_rfl⟩
      · obtain ⟨r, hr, hrt, hrc⟩ := ih c hc
        exact ⟨r, List.mem_cons_of_mem _ hr, hrt, hrc⟩

/-- The upserted entry itself ends up dominated. -/
lemma upsert_dom_new (x : Recommendation) (acc : List Recommendation) :
    ∃ r ∈ upsert acc x, r.chart_type = x.chart_type ∧
      x.confidence ≤ r.confidence := by
  induction acc with
  | nil => exact ⟨x, by simp [upsert], rfl, le_rfl⟩
  | cons a as ih =>
    rw [upsert]
    split
    · rename_i hty
      split
      · rename_i hconf
        exact ⟨x, List.mem_cons_self _ _, rfl, le_rfl⟩
      · rename_i hconf
        exact ⟨a, List.mem_cons_self _ _, hty, le_of_not_lt hconf⟩
    · obtain ⟨r, hr, hrt, hrc⟩ := ih
      exact ⟨r, List.mem_cons_of_mem _ hr, hrt, hrc⟩

/-- Domination composes. -/
lemma Dom.trans {R S T : List Recommendation} (h1 : Dom R S) (h2 : Dom S T) :
    Dom R T := by
  intro c hc
  obtain ⟨s, hs, hst, hsc⟩ := h2 c hc
  obtain ⟨r, hr, hrt, hrc⟩ := h1 s hs
  exact ⟨r, hr, hrt.trans hst, hsc.trans hrc⟩

/-- The dedup fold: membership, type distinctness and domination, stated
over a running accumulator. -/
lemma foldl_upsert_props (l acc : List Recommendation)
    (hacc : typesNodup acc) :
    typesNodup (l.foldl upsert acc) ∧
    (∀ r ∈ l.foldl upsert acc, r ∈ acc ∨ r ∈ l) ∧
    Dom (l.foldl upsert acc) (acc ++ l) := by
  induction l generalizing acc with
  | nil =>
    refine ⟨hacc, fun r hr => Or.inl hr, ?_⟩
    intro c hc
    rw [List.append_nil] at hc
    exact ⟨c, hc, rfl, le_rfl⟩
  | cons x xs ih =>
    rw [List.foldl_cons]
    obtain ⟨hn, hm, hd⟩ := ih (upsert acc x) (upsert_typesNodup x acc hacc)
    refine ⟨hn, ?_, ?_⟩
    · intro r hr
      rcases hm r hr with hr | hr
      · rcases upsert_mem hr with hr | rfl
        · exact Or.inl hr
        · exact Or.inr (List.mem_cons_self _ _)
      · exact Or.inr (List.mem_cons_of_mem _ hr)
    · intro c hc
      rcases List.mem_append.mp hc with hc | hc
      · obtain ⟨s, hs, hst, hsc⟩ := upsert_dom_old x acc c hc
        obtain ⟨r, hr, hrt, hrc⟩ := hd s (List.mem_append_left _ hs)
        exact ⟨r, hr, hrt.trans hst, hsc.trans hrc⟩
      · rcases List.mem_cons.mp hc with rfl | hc
        · obtain ⟨s, hs, hst, hsc⟩ := upsert_dom_new c acc
          obtain ⟨r, hr, hrt, hrc⟩ := hd s (List.mem_append_left _ hs)
          exact ⟨r, hr, hrt.trans hst, hsc.trans hrc⟩
        · exact hd c (List.mem_append_right _ hc)

/-- The de-duplicated list has pairwise-distinct chart types. -/
lemma dedup_typesNodup (l : List Recommendation) : typesNodup (dedupByType l) :=
  (foldl_upsert_props l [] (List.Pairwise.nil)).1

/-- Every de-duplicated entry is one of the candidates. -/
lemma dedup_sub {r : Recommendation} {l : List Recommendation}
    (h : r ∈ dedupByType l) : r ∈ l := by
  rcases (foldl_upsert_props l [] (List.Pairwise.nil)).2.1 r h with h | h
  · cases h
  · exact h

/-- The de-duplicated list dominates all candidates. -/
lemma dedup_dom (l : List Recommendation) : Dom (dedupByType l) l := by
  have h := (foldl_upsert_props l [] (List.Pairwise.nil)).2.2
  rw [List.nil_append] at h
  exact h

/-- A type-distinct list holds at most one entry per chart type. -/
lemma mem_type_unique {R : List Recommendation} (hn : typesNodup R)
    {r r' : Recommendation} (hr : r ∈ R) (hr' : r' ∈ R)
    (ht : r.chart_type = r'.chart_type) : r = r' := by
  induction R with
  | nil => cases hr
  | cons a as ih =>
    rcases List.pairwise_cons.mp hn with ⟨ha, has⟩
    rcases List.mem_cons.mp hr with rfl | hr <;>
      rcases List.mem_cons.mp hr' with h' | hr'
    · exact h'.symm
    · exact absurd ht (ha r' hr')
    · rw [← h'] at ha
      exact absurd ht.symm (ha r hr)
    · exact ih has hr hr'

/-- When nothing pending strictly beats the dict's first entry, the fold
keeps it in front. -/
lemma foldl_upsert_head (r0 : Recommendation) (l : List Recommendation) :
    ∀ acc' : List Recommendation,
      (∀ x ∈ l, x.confidence ≤ r0.confidence) →
      ∃ t, (l.foldl upsert (r0 :: acc')) = r0 :: t ∧
        ∀ x ∈ t, x ∈ acc' ∨ x ∈ l := by
  induction l with
  | nil => exact fun acc' _ => ⟨acc', rfl, fun x hx => Or.inl hx⟩
  | cons x xs ih =>
    intro acc' h
    rw [List.foldl_cons]
    have hx := h x (List.mem_cons_self _ _)
    have hupsert : upsert (r0 :: acc') x =
        if r0.chart_type = x.chart_type then r0 :: acc'
        else r0 :: upsert acc' x := by
      rw [upsert]
      split
      · exact if_neg (not_lt.mpr hx)
      · rfl
    by_cases hty : r0.chart_type = x.chart_type
    · rw [hupsert, if_pos hty]
      obtain ⟨t, ht, hmem⟩ := ih acc' (fun y hy => h y (List.mem_cons_of_mem _ hy))
      exact ⟨t, ht, fun y hy => (hmem y hy).imp id (List.mem_cons_of_mem _)⟩
    · rw [hupsert, if_neg hty]
      obtain ⟨t, ht, hmem⟩ := ih (upsert acc' x)
        (fun y hy => h y (List.mem_cons_of_mem _ hy))
      refine ⟨t, ht, fun y hy => ?_⟩
      rcases hmem y hy with hy' | hy'
      · rcases upsert_mem hy' with hy'' | rfl
        · exact Or.inl hy''
        · exact Or.inr (List.mem_cons_self _ _)
      · exact Or.inr (List.mem_cons_of_mem _ hy')

/-- The dedup of a candidate list whose head dominates every confidence
keeps that head in front, with a tail drawn from the rest. -/
lemma dedup_head (r0 : Recommendation) (l : List Recommendation)
    (h : ∀ x ∈ l, x.confidence ≤ r0.confidence) :
    ∃ t, dedupByType (r0 :: l) = r0 :: t ∧ ∀ x ∈ t, x ∈ l := by
  have : dedupByType (r0 :: l) = l.foldl upsert (r0 :: []) := rfl
  rw [this]
  obtain ⟨t, ht, hmem⟩ := foldl_upsert_head r0 l [] h
  refine ⟨t, ht, fun x hx => ?_⟩
  rcases hmem x hx with hx' | hx'
  · cases hx'
  · exact hx'

/-- Every characteristic-rule recommendation carries confidence ≤ 0.9. -/
lemma charRules_conf_le (c : DataCharacteristic) (p : DataProfile)
    (i : Option String) (r : Recommendation)
    (h : r ∈ applyCharacteristicRules c p i) : r.confidence ≤ 9/10 := by
  cases c with
  | temporal =>
    rw [applyCharacteristicRules] at h
    rcases h1 : p.temporal_fields with _ | ⟨t, ts⟩ <;> rw [h1] at h
    · cases h
    · rcases h2 : p.numeric_fields with _ | ⟨n, ns⟩ <;> rw [h2] at h
      · cases h
      · simp at h
        rcases h with rfl | rfl <;> norm_num
  | categorical =>
    rw [applyCharacteristicRules] at h
    rcases h1 : p.categorical_fields with _ | ⟨c1, cs1⟩ <;> rw [h1] at h
    · cases h
    · rcases h2 : p.numeric_fields with _ | ⟨n, ns⟩ <;> rw [h2] at h
      · cases h
      · rcases List.mem_append.mp h with h | h
        · split at h
          · simp at h
            rw [h]
            norm_num
          · cases h
        · simp at h
          rw [h]
          norm_num
  | correlation =>
    rw [applyCharacteristicRules] at h
    rcases h1 : p.numeric_fields with _ | ⟨a, rest⟩ <;> rw [h1] at h
    · cases h
    · rcases rest with _ | ⟨b, rest'⟩
      · cases h
      · simp at h
        rw [h]
  | distribution =>
    rw [applyCharacteristicRules] at h
    rcases h1 : p.numeric_fields with _ | ⟨n, ns⟩ <;> rw [h1] at h
    · cases h
    · simp at h
      rw [h]
      norm_num
  | numerical => simp [applyCharacteristicRules] at h
  | hierarchical => simp [applyCharacteristicRules] at h

/-- With temporal and numeric fields present, the characteristic list
starts with `temporal`. -/
lemma identifyCharacteristics_head (f : Frame) (num cat temp : List String)
    (h2 : num ≠ []) (h1 : temp ≠ []) :
    ∃ cs, identifyCharacteristics f num cat temp =
      DataCharacteristic.temporal :: cs := by
  cases temp with
  | nil => exact absurd rfl h1
  | cons t ts =>
    cases num with
    | nil => exact absurd rfl h2
    | cons n ns => exact ⟨_, rfl⟩

/-- A profile with a temporal field comes from a non-empty frame. -/
lemma analyzeData_nrows_ne (f : Frame)
    (h : (analyzeData f).temporal_fields ≠ []) : nrows f ≠ 0 := by
  intro h0
  apply h
  rw [analyzeData, if_pos h0]

/-- On a non-empty frame the profile's characteristics are those computed
from its own field classification, and the record count is the row count. -/
lemma analyzeData_pos_proj (f : Frame) (h0 : nrows f ≠ 0) :
    (analyzeData f).data_characteristics =
      identifyCharacteristics f (analyzeData f).numeric_fields
        (analyzeData f).categorical_fields (analyzeData f).temporal_fields ∧
    (analyzeData f).total_records = nrows f := by
  rw [analyzeData, if_neg h0]
  exact ⟨rfl, rfl⟩

/-- Shape of the temporal characteristic's recommendations: a line
recommendation at confidence 0.9 followed by an area recommendation at
0.8. -/
lemma temporal_rules_shape (p : DataProfile) (i : Option String)
    (h1 : p.temporal_fields ≠ []) (h2 : p.numeric_fields ≠ []) :
    ∃ r1 r2, applyCharacteristicRules .temporal p i = [r1, r2] ∧
      r1.chart_type = .line ∧ r1.confidence = 9/10 ∧ r2.confidence = 8/10 := by
  rcases hT : p.temporal_fields with _ | ⟨t, ts⟩
  · exact absurd hT h1
  rcases hN : p.numeric_fields with _ | ⟨n, ns⟩
  · exact absurd hN h2
  rw [applyCharacteristicRules, hT, hN]
  exact ⟨_, _, rfl, rfl, rfl, rfl⟩

/-- `recommend_charts` as the dispatch over the empty-dataset guard. -/
lemma recommendCharts_eq (f : Frame) (i : Option String)
    (pr : Option UserPreferences) :
    recommendCharts f i pr =
      if (analyzeData f).total_records = 0 then []
      else (sortDesc (dedupByType (candidateRecs f i pr))).take 5 := rfl

/-- With no intent text and no preferences, every candidate's confidence is
at most 0.9. -/
lemma candidate_conf_le_of_plain (f : Frame) :
    ∀ x ∈ candidateRecs f Option.none Option.none, x.confidence ≤ 9/10 := by
  intro x hx
  have heq : candidateRecs f Option.none Option.none =
      ((analyzeData f).data_characteristics.map
        (fun c => applyCharacteristicRules c (analyzeData f) Option.none)).flatten
        ++ [] := rfl
  rw [heq, List.append_nil, List.mem_flatten] at hx
  obtain ⟨l, hl, hxl⟩ := hx
  rw [List.mem_map] at hl
  obtain ⟨c, hc, rfl⟩ := hl
  exact charRules_conf_le c _ _ x hxl

/-- C5: `recommend_charts` returns at most five recommendations with
pairwise-distinct chart types, sorted by non-increasing confidence, each
being a generated candidate of maximal confidence for its chart type; and
on a dataset profiling both a temporal and a numeric field (called with no
intent and no preferences, as the spec's scenario does), the top result is
a line recommendation with confidence at least 0.9. -/
theorem C5_recommend_charts_shape :
    (∀ (f : Frame) (intent : Option String) (prefs : Option UserPreferences),
      (recommendCharts f intent prefs).length ≤ 5 ∧
      (recommendCharts f intent prefs).Pairwise
        (fun a b => a.chart_type ≠ b.chart_type) ∧
      (recommendCharts f intent prefs).Pairwise
        (fun a b => b.confidence ≤ a.confidence) ∧
      (∀ r ∈ recommendCharts f intent prefs,
        r ∈ candidateRecs f intent prefs ∧
        ∀ c ∈ candidateRecs f intent prefs,
          c.chart_type = r.chart_type → c.confidence ≤ r.confidence)) ∧
    (∀ f : Frame, (analyzeData f).temporal_fields ≠ [] →
      (analyzeData f).numeric_fields ≠ [] →
      ∃ r rest, recommendCharts f Option.none Option.none = r :: rest ∧
        r.chart_type = .line ∧ (9 : ℚ)/10 ≤ r.confidence) := by
  constructor
  · intro f intent prefs
    rw [recommendCharts_eq]
    split
    · exact ⟨by simp, by simp, by simp, by simp⟩
    · refine ⟨?_, ?_, ?_, ?_⟩
      · rw [List.length_take]
        exact min_le_left _ _
      · refine List.Pairwise.sublist (List.take_sublist _ _) ?_
        refine ((sortDesc_perm _).pairwise_iff ?_).mpr
          (dedup_typesNodup (candidateRecs f intent prefs))
        intro a b hab
        exact fun h => hab h.symm
      · exact List.Pairwise.sublist (List.take_sublist _ _) (sortDesc_sorted _)
      · intro r hr
        have hrD : r ∈ dedupByType (candidateRecs f intent prefs) :=
          (sortDesc_perm _).mem_iff.mp (List.mem_of_mem_take hr)
        refine ⟨dedup_sub hrD, ?_⟩
        intro c hc hct
        obtain ⟨r', hr'D, hr't, hr'c⟩ := dedup_dom _ c hc
        have : r' = r :=
          mem_type_unique (dedup_typesNodup _) hr'D hrD (hr't.trans hct)
        rw [← this]
        exact hr'c
  · intro f hT hN
    have h0 := analyzeData_nrows_ne f hT
    obtain ⟨hchars, htot⟩ := analyzeData_pos_proj f h0
    obtain ⟨cs, hcs⟩ : ∃ cs, (analyzeData f).data_characteristics =
        DataCharacteristic.temporal :: cs := by
      rw [hchars]
      exact identifyCharacteristics_head f _ _ _ hN hT
    obtain ⟨r1, r2, hrules, hty1, hc1, hc2⟩ :=
      temporal_rules_shape (analyzeData f) Option.none hT hN
    have hL : candidateRecs f Option.none Option.none =
        r1 :: r2 :: (cs.map (fun c =>
          applyCharacteristicRules c (analyzeData f) Option.none)).flatten := by
      have hbase : candidateRecs f Option.none Option.none =
          ((analyzeData f).data_characteristics.map
            (fun c => applyCharacteristicRules c (analyzeData f)
              Option.none)).flatten ++ [] := rfl
      rw [hbase, List.append_nil, hcs, List.map_cons, List.flatten_cons, hrules]
      rfl
    have htail : ∀ x ∈ r2 :: (cs.map (fun c =>
        applyCharacteristicRules c (analyzeData f) Option.none)).flatten,
        x.confidence ≤ r1.confidence := by
      intro x hx
      rw [hc1]
      apply candidate_conf_le_of_plain f
      rw [hL]
      exact List.mem_cons_of_mem _ hx
    obtain ⟨t, hD, htmem⟩ := dedup_head r1 _ htail
    have htconf : ∀ x ∈ t, x.confidence ≤ r1.confidence :=
      fun x hx => htail x (htmem x hx)
    have hsort : sortDesc (dedupByType (candidateRecs f Option.none
        Option.none)) = r1 :: sortDesc t := by
      rw [hL, hD]
      exact sortDesc_head_max r1 t (fun x hx =>
        htconf x ((sortDesc_perm t).mem_iff.mp ((sortDesc_perm t).mem_iff.mpr hx)))
    refine ⟨r1, (sortDesc t).take 4, ?_, hty1, by rw [hc1]⟩
    rw [recommendCharts_eq, if_neg (by rw [htot]; exact h0), hsort]
    rfl

/-- Witness for C5: a concrete 5-row time-series dataset (a date field plus
one numeric field). -/
theorem C5_recommend_charts_shape_witness :
    ∃ r rest, recommendCharts
        [⟨"date", [.str "2024-01-01", .str "2024-01-02", .str "2024-01-03",
          .str "2024-01-04", .str "2024-01-05"]⟩,
         ⟨"amount", [.int 10, .int 20, .int 30, .int 40, .int 50]⟩]
        Option.none Option.none = r :: rest ∧
      r.chart_type = .line ∧ (9 : ℚ)/10 ≤ r.confidence :=
  C5_recommend_charts_shape.2
    [⟨"date", [.str "2024-01-01", .str "2024-01-02", .str "2024-01-03",
      .str "2024-01-04", .str "2024-01-05"]⟩,
     ⟨"amount", [.int 10, .int 20, .int 30, .int 40, .int 50]⟩]
    (by with_unfolding_all decide) (by with_unfolding_all decide)

/-- C8 counterexample: on a dataset whose single temporal field has 50
distinct values, the temporal line rule still sets `show_points` to true —
the code tests `len(profile.temporal_fields) < 50` (the number of temporal
field names), not the number of distinct points of the series. -/
theorem C8_show_points_counterexample :
    ((applyCharacteristicRules .temporal (analyzeData
        [⟨"date", (List.range 50).map (fun k => CellVal.str ("d" ++ toString k))⟩,
         ⟨"value", (List.range 50).map (fun k => CellVal.int k)⟩])
        Option.none).head?.map
      (fun r => dictGet r.configuration "show_points")) =
        some (some (.bool true)) ∧
    ((analyzeData
        [⟨"date", (List.range 50).map (fun k => CellVal.str ("d" ++ toString k))⟩,
         ⟨"value", (List.range 50).map (fun k => CellVal.int k)⟩]).unique_values.find?
      (fun kv => kv.1 == "date")).map (fun kv => kv.2) = some 50 := by
  constructor
  · with_unfolding_all rfl
  · with_unfolding_all rfl

/-- C8 (amended): for every dataset profiling both temporal and numeric
fields, the temporal characteristic's first recommendation is a line chart
at confidence 0.9 with `smooth_line` always true and `show_points` true
exactly when the profile holds fewer than 50 temporal *fields*. -/
theorem C8_temporal_line_config (f : Frame) (i : Option String)
    (h1 : (analyzeData f).temporal_fields ≠ [])
    (h2 : (analyzeData f).numeric_fields ≠ []) :
    ∃ r rest,
      applyCharacteristicRules .temporal (analyzeData f) i = r :: rest ∧
      r.chart_type = .line ∧ r.confidence = 9/10 ∧
      dictGet r.configuration "smooth_line" = some (.bool true) ∧
      dictGet r.configuration "show_points" =
        some (.bool (decide ((analyzeData f).temporal_fields.length < 50))) := by
  rcases hT : (analyzeData f).temporal_fields with _ | ⟨t, ts⟩
  · exact absurd hT h1
  rcases hN : (analyzeData f).numeric_fields with _ | ⟨n, ns⟩
  · exact absurd hN h2
  rw [applyCharacteristicRules, hT, hN]
  exact ⟨_, _, rfl, rfl, rfl, rfl, rfl⟩

/-- Witness for the amended C8 at a concrete 3-row time series. -/
theorem C8_temporal_line_config_witness :
    ∃ r rest,
      applyCharacteristicRules .temporal (analyzeData
        [⟨"date", [.str "d1", .str "d2", .str "d3"]⟩,
         ⟨"value", [.int 1, .int 2, .int 3]⟩]) Option.none = r :: rest ∧
      r.chart_type = .line ∧ r.confidence = 9/10 ∧
      dictGet r.configuration "smooth_line" = some (.bool true) ∧
      dictGet r.configuration "show_points" =
        some (.bool (decide ((analyzeData
          [⟨"date", [.str "d1", .str "d2", .str "d3"]⟩,
           ⟨"value", [.int 1, .int 2, .int 3]⟩]).temporal_fields.length < 50))) :=
  C8_temporal_line_config
    [⟨"date", [.str "d1", .str "d2", .str "d3"]⟩,
     ⟨"value", [.int 1, .int 2, .int 3]⟩] Option.none
    (by with_unfolding_all decide) (by with_unfolding_all decide)

/-- C3 (code bug): on a 4-row dataset with two *uncorrelated* numeric
fields (their Pearson correlation is 0), the code still attaches the
`correlation` characteristic — `corr_matrix.abs().max().max()` ranges over
the whole correlation matrix, whose diagonal is 1.0 for any non-constant
field — while the spec's distinct-pair reading of "maximum absolute
pairwise correlation exceeds 0.7" is false on the same dataset. -/
theorem C3_correlation_diagonal_bug :
    DataCharacteristic.correlation ∈
      (analyzeData [⟨"a", [.int 1, .int 2, .int 1, .int 2]⟩,
                    ⟨"b", [.int 1, .int 1, .int 2, .int 2]⟩]).data_characteristics ∧
    specStrongPairwiseCorrelation
      [⟨"a", [.int 1, .int 2, .int 1, .int 2]⟩,
       ⟨"b", [.int 1, .int 1, .int 2, .int 2]⟩] = false := by
  constructor
  · with_unfolding_all decide
  · with_unfolding_all decide

end ESAgent
